import Mathlib

/- Verification development for the batch controller and job executor
   pipeline of the Anime-Media-Upscaler repository.  The Python sources
   src/app/workers.py and src/app/main_window.py are shallowly embedded as
   pure Lean functions over an explicit filesystem and process environment:
   filesystem probes become queries to an FS record, external process
   invocations and directory removals become recorded actions, Qt signals
   become recorded events, and the asynchronous cancellation flag becomes a
   schedule giving the value of the flag at its n-th read. -/

deriving instance DecidableEq for Except

/-- ASCII lower-casing of one character; str.lower as used on the file
    extensions handled by the program (all ASCII). -/
def lowerChar (c : Char) : Char :=
  if 65 ≤ c.toNat ∧ c.toNat ≤ 90 then Char.ofNat (c.toNat + 32) else c

/-- ASCII str.lower. -/
def lowerStr (s : String) : String := String.mk (s.data.map lowerChar)

/-- Boolean test that the first list is an initial segment of the second. -/
def leadsL : List Char → List Char → Bool
  | [], _ => true
  | _ :: _, [] => false
  | a :: as, b :: bs => a == b && leadsL as bs

/-- Python str.endswith. -/
def strEndsWith (s suffixStr : String) : Bool :=
  leadsL suffixStr.data.reverse s.data.reverse

/-- Occurrence of a needle anywhere in a list of characters. -/
def occursL (needle : List Char) : List Char → Bool
  | [] => leadsL needle []
  | b :: bs => leadsL needle (b :: bs) || occursL needle bs

/-- Python substring containment, the in operator on str. -/
def strOccurs (needle hay : String) : Bool := occursL needle.data hay.data

/-- Python str.replace with empty replacement, removing every
    non-overlapping occurrence of pat scanning left to right; structural
    recursion on a fuel that dominates the list length (each step consumes
    at least one character, so the fuel never runs out when it starts at
    the length). -/
def replaceAllAux (pat : List Char) : ℕ → List Char → List Char
  | 0, _ => []
  | _ + 1, [] => []
  | fuel + 1, c :: cs =>
    if 0 < pat.length && leadsL pat (c :: cs) then
      replaceAllAux pat fuel (List.drop (pat.length - 1) cs)
    else
      c :: replaceAllAux pat fuel cs

/-- Python str.replace with empty replacement on character lists. -/
def replaceAllL (pat l : List Char) : List Char := replaceAllAux pat l.length l

/-- Python s.replace(pat, empty string). -/
def replaceAllStr (s pat : String) : String := String.mk (replaceAllL pat.data s.data)

/-- Index of the last dot in a list of characters, if any. -/
def lastDotIdx : List Char → Option ℕ
  | [] => none
  | c :: cs =>
    match lastDotIdx cs with
    | some i => some (i + 1)
    | none => if c == Char.ofNat 46 then some 0 else none

/-- pathlib Path.suffix for a bare file name: the part from the last dot on,
    when that dot is neither the first nor the last character. -/
def suffixOf (name : String) : String :=
  match lastDotIdx name.data with
  | some i => if 0 < i ∧ i < name.data.length - 1 then String.mk (name.data.drop i) else ""
  | none => ""

/-- pathlib Path.stem for a bare file name. -/
def stemOf (name : String) : String :=
  match lastDotIdx name.data with
  | some i => if 0 < i ∧ i < name.data.length - 1 then String.mk (name.data.take i) else name
  | none => name

/-- os.path.join for the relative-second-component case used by the code. -/
def joinPath (a b : String) : String := if a = "" then b else a ++ "/" ++ b

/-- os.path.basename for slash-separated paths. -/
def baseName (p : String) : String :=
  String.mk ((p.data.reverse.takeWhile (fun c => c != Char.ofNat 47)).reverse)

/-- os.path.dirname for slash-normalized paths. -/
def dirName (p : String) : String :=
  match p.data.reverse.dropWhile (fun c => c != Char.ofNat 47) with
  | [] => ""
  | _ :: rest => String.mk rest.reverse

/-- Lexicographic code-point comparison on character lists, the string
    ordering Python uses. -/
def strLeL : List Char → List Char → Bool
  | [], _ => true
  | _ :: _, [] => false
  | a :: as, b :: bs =>
    if a.toNat < b.toNat then true
    else if b.toNat < a.toNat then false
    else strLeL as bs

/-- Python string comparison. -/
def strLe (a b : String) : Bool := strLeL a.data b.data

/-- Insertion into a sorted list of strings, for the model of sorted(). -/
def insertSorted (x : String) : List String → List String
  | [] => [x]
  | y :: ys => if strLe x y then x :: y :: ys else y :: insertSorted x ys

/-- Python sorted() on a list of strings (lexicographic). -/
def sortStr : List String → List String
  | [] => []
  | x :: xs => insertSorted x (sortStr xs)

/-- Round a rational to an integer with ties to even, the rounding used on
    the scaled significand in IEEE-754 binary arithmetic. -/
def rhe (x : ℚ) : ℤ :=
  if x - (⌊x⌋ : ℚ) < 1/2 then ⌊x⌋
  else if 1/2 < x - (⌊x⌋ : ℚ) then ⌊x⌋ + 1
  else if ⌊x⌋ % 2 = 0 then ⌊x⌋ else ⌊x⌋ + 1

/-- The IEEE-754 binary64 value nearest to a rational: the significand is
    scaled to 53 bits using the binade exponent and rounded ties-to-even.
    The embedded code only rounds values inside [0, 100], far from overflow
    and subnormal ranges, so those are not modelled; nonpositive inputs
    (which the code never produces at the rounding sites) map to 0. -/
def floatRound (q : ℚ) : ℚ :=
  if q ≤ 0 then 0
  else ((rhe (q * 2 ^ ((52 : ℤ) - Int.log 2 q)) : ℤ) : ℚ) * 2 ^ (Int.log 2 q - 52)

/-- Python int() truncation toward zero. -/
def pyTrunc (x : ℚ) : ℤ := if 0 ≤ x then ⌊x⌋ else -⌊-x⌋

/-- Model of the Python expression int((i + 1) / total_frames * 100) from
    workers.py line 278, evaluated in IEEE double precision: a correctly
    rounded division, a correctly rounded multiplication by the exact
    double 100, then truncation. -/
def pyProgress (k n : ℕ) : ℤ :=
  pyTrunc (floatRound (floatRound ((k : ℚ) / (n : ℚ)) * 100))

/-- Pipeline stage tags for recorded process invocations.  These are ghost
    labels identifying which call site of workers.py spawned the process. -/
inductive Stage
  | image
  | extract
  | frameUp
  | audioTrack
  | reassemble
deriving DecidableEq

/-- Qt signals emitted by WorkerSignals (workers.py lines 21-28). -/
inductive Ev
  | finished
  | error (msg : String)
  | result (path : String)
  | progress (value : ℤ)
  | log (msg : String)
deriving DecidableEq

/-- Externally visible actions of a worker: process invocations (tracked
    records whether the Popen handle is stored in self.current_process),
    temp-tree removal attempts (ok records whether the OS removal worked),
    single-file removal attempts, and temp-dir creation. -/
inductive Act
  | spawn (stage : Stage) (cmd : List String) (tracked : Bool)
  | removeTree (dir : String) (ok : Bool)
  | removeFile (path : String)
  | mkTemp (dir : String)
deriving DecidableEq

/-- One element of a worker trace: an emitted signal or an action. -/
inductive Item
  | ev (e : Ev)
  | act (a : Act)
deriving DecidableEq

abbrev Items := List Item

/-- The filesystem as observed by the probes of workers.py.  A single
    snapshot answers every query a job makes; listDir applied to the frames
    directory reflects the state after extraction. -/
structure FS where
  isFile : String → Bool
  isDir : String → Bool
  pathExists : String → Bool
  which : String → Option String
  listDir : String → List String
  cwd : String

/-- The settings dictionary passed to UpscaleWorker; absent keys are none.
    Truthiness of tile_size (0 or absent means no flag) follows the code. -/
structure Settings where
  model : Option String
  format : Option String
  useGpu : Option Bool
  tileSize : Option ℕ
  fps : Option ℤ
  quality : Option ℤ

/-- Everything outside the worker that determines one run: the filesystem,
    exit codes and stderr of each external process, the outcome of cleanup,
    and the cancellation schedule.  cancelFrom gives the index of the first
    read of self.is_cancelled that returns true (none: never cancelled);
    the flag is set once and never cleared, so this is fully general. -/
structure Env where
  fs : FS
  tempDir : String
  imageRet : ℤ
  imageErr : String
  extractRet : ℤ
  extractErr : String
  frameRet : ℕ → ℤ
  audioRet : ℤ
  reassembleRet : ℤ
  reassembleErr : String
  rmtreeOk : Bool
  rmtreeErrMsg : String
  cancelFrom : Option ℕ

/-- Value of self.is_cancelled at its r-th read. -/
def flagAt (env : Env) (r : ℕ) : Bool :=
  match env.cancelFrom with
  | none => false
  | some c => decide (c ≤ r)

/-- Candidate executable names probed by _find_realesrgan_executable
    (workers.py lines 334-339). -/
def possibleNames : List String :=
  ["realesrgan-ncnn-vulkan", "realesrgan-ncnn-vulkan.exe", "realsr-esrgan", "realsr-esrgan.exe"]

/-- First name whose shutil.which lookup succeeds, returning that lookup. -/
def firstWhich (fs : FS) : List String → Option String
  | [] => none
  | n :: rest =>
    match fs.which n with
    | some p => some p
    | none => firstWhich fs rest

/-- workers.py lines 332-349: probe the search paths for each candidate name
    in order, then fall back to PATH lookup. -/
def findRealesrganExecutable (fs : FS) : Option String :=
  let searchPaths : List String := [".", "bin", joinPath fs.cwd ("bin")]
  let probes := (searchPaths.flatMap (fun p => possibleNames.map (fun n => joinPath p n))).filter fs.isFile
  match probes with
  | full :: _ => some full
  | [] => firstWhich fs possibleNames

/-- First candidate directory that exists and is a directory. -/
def firstDir (fs : FS) : List String → Option String
  | [] => none
  | d :: rest => if fs.pathExists d && fs.isDir d then some d else firstDir fs rest

/-- workers.py lines 151-163: candidate models directories in probe order. -/
def findModelsDirectory (fs : FS) (rePath : String) : Option String :=
  let exeDir := dirName rePath
  firstDir fs
    [joinPath exeDir ("models"), joinPath (joinPath exeDir ("..")) ("models"),
     joinPath fs.cwd ("models"), joinPath fs.cwd (joinPath ("bin") ("models"))]

/-- workers.py lines 351-361: the bin/ffmpeg probe then PATH, raising when
    neither succeeds (posix executable name). -/
def getFfmpegPath (fs : FS) : Except String String :=
  let binFfmpeg := joinPath ("bin") ("ffmpeg")
  if fs.isFile binFfmpeg then Except.ok binFfmpeg
  else
    match fs.which ("ffmpeg") with
    | some p => Except.ok p
    | none => Except.error ("FFmpeg not found. Please ensure ffmpeg is in the bin folder or in PATH.")

/-- workers.py lines 165-176, _get_available_models: a model id is listed
    only when its .param file appears in the directory listing and the
    matching .bin file exists, in filesystem listing order. -/
def getAvailableModels (fs : FS) (modelsDir : String) : List String :=
  if fs.pathExists modelsDir then
    (((fs.listDir modelsDir).filter (fun f => strEndsWith f (".param"))).map
        (fun f => replaceAllStr f (".param"))).filter
      (fun m => fs.pathExists (joinPath modelsDir (m ++ ".bin")))
  else []

/-- Display of settings.get("model") inside the substitution warning; the
    Python f-string renders an absent key as None.  The surrounding single
    quotes of the original message are omitted from the modelled text. -/
def modelRepr (m : Option String) : String :=
  match m with
  | some s => s
  | none => "None"

/-- workers.py lines 86-106: the configured model is accepted whenever its
    .param file exists; otherwise the available models are consulted, the
    requested id is kept when listed, else the first available id is chosen,
    a substitution warning is logged, and the job fails when no model is
    available at all. -/
def resolveModel (fs : FS) (s : Settings) (modelsDir : String) : Items × Except String String :=
  let modelName := s.model.getD ("realesr-animevideov3-x4")
  if fs.pathExists (joinPath modelsDir (modelName ++ ".param")) then
    ([], Except.ok modelName)
  else
    match getAvailableModels fs modelsDir with
    | [] => ([], Except.error ("No Real-ESRGAN models found in " ++ modelsDir))
    | m :: rest =>
      let requested := s.model.getD ("realesr-animevideov3-x4")
      let chosen := if requested ∈ m :: rest then requested else m
      ([Item.ev (Ev.log ("Model " ++ modelRepr s.model ++ " not found, using " ++ chosen ++ " instead"))],
       Except.ok chosen)

/-- The optional -g 0 flag (workers.py lines 121-122, 267-268). -/
def gpuFlags (s : Settings) : List String :=
  if s.useGpu.getD true then ["-g", "0"] else []

/-- The optional -t flag; a missing or zero tile_size is falsy
    (workers.py lines 124-125, 269-270). -/
def tileFlags (s : Settings) : List String :=
  match s.tileSize with
  | some t => if t ≠ 0 then ["-t", toString t] else []
  | none => []

/-- The single image invocation command (workers.py lines 109-125). -/
def imageCmd (s : Settings) (exe modelName fp op : String) : List String :=
  [exe, "-i", fp, "-o", op, "-n", modelName, "-f", s.format.getD ("jpg")]
    ++ gpuFlags s ++ tileFlags s

/-- workers.py lines 69-149, _upscale_image: every exception raised inside is
    caught by the except clause at line 148, which emits a single error
    signal; the spawned process is stored in self.current_process (tracked). -/
def upscaleImage (env : Env) (s : Settings) (fp op : String) : Items :=
  match findRealesrganExecutable env.fs with
  | none =>
    [Item.ev (Ev.error ("Image upscaling error: Real-ESRGAN executable not found. Please install Real-ESRGAN."))]
  | some exe =>
    match findModelsDirectory env.fs exe with
    | none =>
      [Item.ev (Ev.error ("Image upscaling error: Real-ESRGAN models directory not found. Please ensure models are installed."))]
    | some mdir =>
      match resolveModel env.fs s mdir with
      | (its, Except.error e) => its ++ [Item.ev (Ev.error ("Image upscaling error: " ++ e))]
      | (its, Except.ok modelName) =>
        let cmd := imageCmd s exe modelName fp op
        let pre := its ++
          [Item.ev (Ev.log ("Processing: " ++ baseName fp)),
           Item.ev (Ev.log ("Command: " ++ String.intercalate (" ") cmd)),
           Item.act (Act.spawn Stage.image cmd true)]
        if env.imageRet ≠ 0 then
          pre ++ [Item.ev (Ev.error ("Image upscaling error: Upscaling failed: " ++ env.imageErr))]
        else
          pre ++ [Item.ev (Ev.log ("✓ Completed: " ++ baseName op)), Item.ev (Ev.result op)]

/-- workers.py lines 220-240, _extract_frames: one untracked ffmpeg run;
    a missing ffmpeg or nonzero exit raises. -/
def extractFrames (env : Env) (videoPath framesDir : String) : Items × Except String Unit :=
  match getFfmpegPath env.fs with
  | Except.error e => ([], Except.error e)
  | Except.ok ff =>
    let cmd := [ff, "-i", videoPath, "-q:v", "1", "-pix_fmt", "rgb24", joinPath framesDir ("frame_%06d.png")]
    if env.extractRet ≠ 0 then
      ([Item.act (Act.spawn Stage.extract cmd false)], Except.error ("Frame extraction failed: " ++ env.extractErr))
    else
      ([Item.act (Act.spawn Stage.extract cmd false)], Except.ok ())

/-- The per-frame upscale command (workers.py lines 258-270). -/
def frameCmd (s : Settings) (exe framesDir upscaledDir f : String) : List String :=
  [exe, "-i", joinPath framesDir f, "-o", joinPath upscaledDir f, "-n", s.model.getD ("realesr-animevideov3-x4")]
    ++ gpuFlags s ++ tileFlags s

/-- workers.py lines 253-279, the frame loop: the cancellation flag is read
    at the top of each iteration (read index r); each executed iteration
    spawns one untracked process, logs a warning on nonzero exit, and emits
    one progress value.  Returns the produced trace and the next flag-read
    index. -/
def upscaleFramesLoop (env : Env) (s : Settings) (exe framesDir upscaledDir : String)
    (total : ℕ) : List String → ℕ → ℕ → Items × ℕ
  | [], _, r => ([], r)
  | f :: rest, i, r =>
    if flagAt env r then ([], r + 1)
    else
      let warn : Items :=
        if env.frameRet i ≠ 0 then [Item.ev (Ev.log ("Warning: Frame " ++ f ++ " failed to upscale"))] else []
      let tailPair := upscaleFramesLoop env s exe framesDir upscaledDir total rest (i + 1) (r + 1)
      (Item.act (Act.spawn Stage.frameUp (frameCmd s exe framesDir upscaledDir f) false) ::
        (warn ++ (Item.ev (Ev.progress (pyProgress (i + 1) total)) :: tailPair.1)), tailPair.2)

/-- The sorted .png listing of the frames directory (workers.py line 244). -/
def extractedFrames (env : Env) (framesDir : String) : List String :=
  sortStr ((env.fs.listDir framesDir).filter (fun f => strEndsWith f (".png")))

/-- workers.py lines 242-279, _upscale_frames: empty frame set and missing
    executable raise before any iteration runs. -/
def upscaleFrames (env : Env) (s : Settings) (framesDir upscaledDir : String)
    (r : ℕ) : Items × ℕ × Except String Unit :=
  let frameFiles := extractedFrames env framesDir
  if frameFiles.isEmpty then
    ([], r, Except.error ("No frames were extracted from the video"))
  else
    match findRealesrganExecutable env.fs with
    | none => ([], r, Except.error ("Real-ESRGAN executable not found"))
    | some exe =>
      let lp := upscaleFramesLoop env s exe framesDir upscaledDir frameFiles.length frameFiles 0 r
      (lp.1, lp.2, Except.ok ())

/-- workers.py lines 281-330, _reassemble_video: an untracked audio-copy run
    whose outcome is ignored, an untracked mux run, removal of the temp audio
    artifact regardless of outcome, then a raise on nonzero mux exit. -/
def reassembleVideo (env : Env) (s : Settings) (upscaledDir outputPath originalVideo : String) :
    Items × Except String Unit :=
  match getFfmpegPath env.fs with
  | Except.error e => ([], Except.error e)
  | Except.ok ff =>
    let tempAudio := joinPath (dirName outputPath) ("temp_audio.aac")
    let audioCmd := [ff, "-i", originalVideo, "-vn", "-acodec", "copy", tempAudio]
    let reCmd := [ff, "-framerate", toString (s.fps.getD 24), "-i", joinPath upscaledDir ("frame_%06d.png"),
      "-i", tempAudio, "-c:v", "libx264", "-c:a", "aac", "-pix_fmt", "yuv420p",
      "-crf", toString (s.quality.getD 18), outputPath]
    let its : Items := [Item.act (Act.spawn Stage.audioTrack audioCmd false),
      Item.act (Act.spawn Stage.reassemble reCmd false), Item.act (Act.removeFile tempAudio)]
    if env.reassembleRet ≠ 0 then
      (its, Except.error ("Video reassembly failed: " ++ env.reassembleErr))
    else (its, Except.ok ())

/-- workers.py lines 188-208, the body of the inner try of _upscale_video:
    stage sequencing with a cancellation check after extraction and another
    after the frame loop; early cancelled exits return normally.  Returns the
    trace, the next flag-read index, and the pipeline outcome. -/
def upscaleVideoInner (env : Env) (s : Settings) (fp op framesDir upscaledDir : String)
    (r : ℕ) : Items × ℕ × Except String Unit :=
  let logX : Items := [Item.ev (Ev.log ("Extracting video frames..."))]
  match extractFrames env fp framesDir with
  | (its1, Except.error e) => (logX ++ its1, r, Except.error e)
  | (its1, Except.ok ()) =>
    if flagAt env r then (logX ++ its1, r + 1, Except.ok ())
    else
      let logU : Items := [Item.ev (Ev.log ("Upscaling frames..."))]
      match upscaleFrames env s framesDir upscaledDir (r + 1) with
      | (its2, r2, Except.error e) => (logX ++ its1 ++ logU ++ its2, r2, Except.error e)
      | (its2, r2, Except.ok ()) =>
        if flagAt env r2 then (logX ++ its1 ++ logU ++ its2, r2 + 1, Except.ok ())
        else
          let logR : Items := [Item.ev (Ev.log ("Reassembling video..."))]
          match reassembleVideo env s upscaledDir op fp with
          | (its3, Except.error e) =>
            (logX ++ its1 ++ logU ++ its2 ++ logR ++ its3, r2 + 1, Except.error e)
          | (its3, Except.ok ()) =>
            (logX ++ its1 ++ logU ++ its2 ++ logR ++ its3 ++
              [Item.ev (Ev.log ("✓ Video upscaling completed: " ++ baseName op)),
               Item.ev (Ev.result op)], r2 + 1, Except.ok ())

/-- The finally block of _upscale_video (workers.py lines 209-216):
    the removal attempt always happens, and its failure produces only a
    warning log entry. -/
def cleanupItems (env : Env) : Items :=
  if env.rmtreeOk then [Item.act (Act.removeTree env.tempDir true)]
  else [Item.act (Act.removeTree env.tempDir false),
    Item.ev (Ev.log ("Warning: Could not clean up temporary files: " ++ env.rmtreeErrMsg))]

/-- Outer shell of _upscale_video (workers.py lines 178-218): workspace
    creation (modelled as succeeding, with the fresh root given by the
    environment), the guaranteed-cleanup block, and the except clause that
    turns a pipeline exception into a single error signal after cleanup. -/
def upscaleVideo (env : Env) (s : Settings) (fp op : String) : Items :=
  let framesDir := joinPath env.tempDir ("frames")
  let upscaledDir := joinPath env.tempDir ("upscaled")
  let inner := upscaleVideoInner env s fp op framesDir upscaledDir 0
  let base := Item.act (Act.mkTemp env.tempDir) :: (inner.1 ++ cleanupItems env)
  match inner.2.2 with
  | Except.ok () => base
  | Except.error e => base ++ [Item.ev (Ev.error ("Video upscaling error: " ++ e))]

/-- workers.py lines 58-60: dispatch on the lower-cased file extension. -/
def videoSuffixes : List String := [".mp4", ".avi", ".mkv", ".mov", ".wmv", ".flv"]

/-- Whether run() takes the video path for this input file. -/
def isVideoFile (fp : String) : Bool :=
  videoSuffixes.any (fun suf => strEndsWith (lowerStr fp) suf)

/-- workers.py lines 54-67, run(): the chosen pipeline handles its own
    exceptions, and the finally clause emits finished exactly once at the
    end of every run. -/
def runWorker (env : Env) (s : Settings) (fp op : String) : Items :=
  (if isVideoFile fp then upscaleVideo env s fp op else upscaleImage env s fp op)
    ++ [Item.ev Ev.finished]

/-- Process-control requests cancel() can issue. -/
inductive PAct
  | terminate
  | waitSecs (t : ℕ)
  | kill
deriving DecidableEq

/-- workers.py lines 363-374, cancel(): the flag is always set; when a
    process handle is stored in self.current_process it is terminated, waited
    on for five seconds, and killed when terminate or the bounded wait fails.
    terminateOk and waitOk say whether those two calls return normally. -/
def cancelWorker (currentProcess : Option Unit) (terminateOk waitOk : Bool) : Bool × List PAct :=
  (true,
    match currentProcess with
    | none => []
    | some _ =>
      PAct.terminate ::
        ((if terminateOk then [PAct.waitSecs 5] else []) ++
         (if terminateOk && waitOk then [] else [PAct.kill])))

/-- Controller-side state of AnimeUpscalerGUI relevant to batching
    (main_window.py): the completed counter self.processed_files, the batch
    size self.total_files, whether an output folder is selected, the indices
    handed to workers by process_next_file in order, how many times
    processing_completed ran (each run reports a summary naming total jobs),
    and whether stop_processing ran. -/
structure BatchSt where
  processed : ℕ
  total : ℕ
  hasOutput : Bool
  dispatched : List ℕ
  completedReports : ℕ
  stopped : Bool
deriving DecidableEq

/-- main_window.py lines 390-426, process_next_file: report completion when
    the counter has reached the total, abort when no output folder is set,
    otherwise dispatch the file at index processed_files. -/
def processNextFile (b : BatchSt) : BatchSt :=
  if b.total ≤ b.processed then { b with completedReports := b.completedReports + 1 }
  else if b.hasOutput then { b with dispatched := b.dispatched ++ [b.processed] }
  else { b with stopped := true }

/-- main_window.py lines 428-451, on_file_finished: increment the counter and
    dispatch the next file (worker-list and progress-bar upkeep are UI
    state outside this model). -/
def onFileFinished (b : BatchSt) : BatchSt :=
  processNextFile { b with processed := b.processed + 1 }

/-- main_window.py lines 453-457, on_error: log the message (UI), increment
    the counter and dispatch the next file. -/
def onError (_msg : String) (b : BatchSt) : BatchSt :=
  processNextFile { b with processed := b.processed + 1 }

/-- The two worker signals wired to counter-advancing controller slots
    (main_window.py lines 421-422). -/
inductive JobEv
  | finished
  | error (msg : String)
deriving DecidableEq

/-- Delivery of one queued signal to the controller. -/
def deliver (b : BatchSt) : JobEv → BatchSt
  | JobEv.finished => onFileFinished b
  | JobEv.error m => onError m b

/-- Serialized delivery of a signal sequence to the controller. -/
def deliverAll (b : BatchSt) : List JobEv → BatchSt
  | [] => b
  | e :: es => deliverAll (deliver b e) es

/-- main_window.py lines 363-388, start_upscaling: reset the counter, record
    the total, then dispatch the first file. -/
def startBatch (total : ℕ) (hasOutput : Bool) : BatchSt :=
  processNextFile
    { processed := 0, total := total, hasOutput := hasOutput,
      dispatched := [], completedReports := 0, stopped := false }

/-- The controller-visible signals of a worker trace: finished and error are
    the only worker signals connected to counter-advancing slots. -/
def batchEvents (its : Items) : List JobEv :=
  its.filterMap (fun it =>
    match it with
    | Item.ev Ev.finished => some JobEv.finished
    | Item.ev (Ev.error m) => some (JobEv.error m)
    | _ => none)

/-- main_window.py lines 402-417: derived output file name for one enqueued
    input path (pathlib stem and suffix act on the final path component).
    The extension is kept for video inputs and replaced by the configured
    image format otherwise; the scale tag is chosen by the first matching
    substring of the model id in the order x2, x3, x4, defaulting to x4. -/
def outputFilename (filePath model fmt : String) : String :=
  let fileExt := suffixOf (baseName filePath)
  let outputExt := if lowerStr fileExt ∈ videoSuffixes then fileExt else "." ++ fmt
  let scale :=
    if strOccurs ("x2") model then "x2"
    else if strOccurs ("x3") model then "x3"
    else if strOccurs ("x4") model then "x4"
    else "x4"
  stemOf (baseName filePath) ++ "_upscaled_" ++ scale ++ outputExt

/-- Modelled from the spec words of section 4.5 and section 3, for the
    refinement comparison of claim C8: the name is stem plus _upscaled_ plus
    scale plus ext, where ext is the original extension for video inputs and
    a dot plus the configured image format for image inputs, and scale is
    derived from the model id by first-match substring priority 2, 3, 4 with
    default x4. -/
def specScaleOf (model : String) : String :=
  if strOccurs ("x2") model then "x2"
  else if strOccurs ("x3") model then "x3"
  else "x4"

/-- Modelled from the spec words of section 4.5 (see specScaleOf). -/
def specOutputFilename (filePath model fmt : String) : String :=
  let ext := suffixOf (baseName filePath)
  let extOut := if lowerStr ext ∈ videoSuffixes then ext else "." ++ fmt
  stemOf (baseName filePath) ++ "_upscaled_" ++ specScaleOf model ++ extOut

/-- Whether a trace element is an emitted error signal. -/
def isErrorItem : Item → Bool
  | Item.ev (Ev.error _) => true
  | _ => false

/-- Whether a trace element is the emitted finished signal. -/
def isFinishedItem : Item → Bool
  | Item.ev Ev.finished => true
  | _ => false

/-- The progress values of a trace, in emission order. -/
def progressValues (its : Items) : List ℤ :=
  its.filterMap (fun it =>
    match it with
    | Item.ev (Ev.progress v) => some v
    | _ => none)

/-- Number of external process invocations recorded in a trace. -/
def spawnCount (its : Items) : ℕ :=
  its.countP (fun it =>
    match it with
    | Item.act (Act.spawn _ _ _) => true
    | _ => false)

/-- Number of process invocations of one pipeline stage in a trace. -/
def stageSpawnCount (st : Stage) (its : Items) : ℕ :=
  its.countP (fun it =>
    match it with
    | Item.act (Act.spawn st2 _ _) => st2 == st
    | _ => false)

/-- Every process invocation of the trace leaves current_process unset. -/
def spawnsUntracked (its : Items) : Bool :=
  its.all (fun it =>
    match it with
    | Item.act (Act.spawn _ _ tr) => !tr
    | _ => true)

/-- Every process invocation of the trace stores its handle in
    current_process. -/
def spawnsTracked (its : Items) : Bool :=
  its.all (fun it =>
    match it with
    | Item.act (Act.spawn _ _ tr) => tr
    | _ => true)

/-- The progress values the frame loop emits for m completed frames starting
    at 1-based frame number start, out of total. -/
def progList (start m total : ℕ) : List ℤ :=
  (List.range m).map (fun j => pyProgress (start + j) total)

/-- A filesystem with no tools, no models and no files at all. -/
def fsEmpty : FS where
  isFile := fun _ => false
  isDir := fun _ => false
  pathExists := fun _ => false
  which := fun _ => none
  listDir := fun _ => []
  cwd := "/cw"

/-- The settings dictionary produced by get_current_settings with the x2
    anime model and defaults. -/
def settings0 : Settings where
  model := some "realesr-animevideov3-x2"
  format := some "jpg"
  useGpu := some true
  tileSize := some 0
  fps := some 24
  quality := some 18

/-- A run environment over the empty filesystem: no upscaler, no ffmpeg. -/
def envBare : Env where
  fs := fsEmpty
  tempDir := "/tmp/ws"
  imageRet := 0
  imageErr := ""
  extractRet := 0
  extractErr := ""
  frameRet := fun _ => 0
  audioRet := 0
  reassembleRet := 0
  reassembleErr := ""
  rmtreeOk := true
  rmtreeErrMsg := ""
  cancelFrom := none

/-- A filesystem where only ffmpeg is on PATH and extraction yields one
    frame; the upscaler is nowhere. -/
def fsFfmpegOnly : FS :=
  { fsEmpty with
    which := fun n => if n = "ffmpeg" then some ("/usr/bin/ffmpeg") else none,
    listDir := fun d => if d = "/tmp/ws/frames" then ["frame_000001.png"] else [] }

/-- A video-job environment whose extraction succeeds but whose upscaler
    cannot be located in any probed location. -/
def envVidNoUp : Env := { envBare with fs := fsFfmpegOnly }

/-- Fixed-width decimal rendering of an index below 1000, keeping generated
    frame listings in lexicographic order. -/
def threeDigits (i : ℕ) : String :=
  String.mk [Char.ofNat (48 + i / 100 % 10), Char.ofNat (48 + i / 10 % 10), Char.ofNat (48 + i % 10)]

/-- A filesystem with ffmpeg on PATH, the upscaler in the working directory
    and an extraction result of n frames. -/
def fsVidFrames (n : ℕ) : FS :=
  { fsEmpty with
    isFile := fun p => p = "./realesrgan-ncnn-vulkan",
    which := fun s => if s = "ffmpeg" then some ("/usr/bin/ffmpeg") else none,
    listDir := fun d =>
      if d = "/tmp/ws/frames" then (List.range n).map (fun i => "frame_" ++ threeDigits i ++ ".png")
      else [] }

/-- Ten extracted frames, cancellation first observed at the fifth flag
    read: the flag is set right after the fourth frame completes. -/
def envVidCancel : Env := { envBare with fs := fsVidFrames 10, cancelFrom := some 5 }

/-- One hundred extracted frames, never cancelled, every invocation
    succeeding. -/
def envVid100 : Env := { envBare with fs := fsVidFrames 100 }

/-- The video environment without an upscaler whose workspace removal also
    fails. -/
def envVidWarn : Env := { envVidNoUp with rmtreeOk := false, rmtreeErrMsg := "locked" }

/-- A filesystem for model resolution: the upscaler sits in the working
    directory next to a models directory listing m1.param, m2.param and
    m2.bin, so m1 has a parameter file but no weight file. -/
def fsModelsParamOnly : FS :=
  { fsEmpty with
    isFile := fun p => p = "./realesrgan-ncnn-vulkan",
    isDir := fun d => d = "./models",
    pathExists := fun p =>
      p = "./models" || p = "./models/m1.param" || p = "./models/m2.param" || p = "./models/m2.bin",
    listDir := fun d => if d = "./models" then ["m1.param", "m2.param", "m2.bin"] else [] }

/-- The same filesystem with m1.param removed: the configured model has no
    parameter file, and m2 is the only available model. -/
def fsModelsFallback : FS :=
  { fsModelsParamOnly with
    pathExists := fun p => p = "./models" || p = "./models/m2.param" || p = "./models/m2.bin" }

/-- An image-job environment over fsModelsParamOnly. -/
def envModelParamOnly : Env := { envBare with fs := fsModelsParamOnly }

/-- Settings requesting model m1. -/
def settingsM1 : Settings := { settings0 with model := some "m1" }

/-- Number of error signals in a trace. -/
def errorCount (its : Items) : ℕ := its.countP isErrorItem

/-- Number of finished signals in a trace. -/
def finishedCount (its : Items) : ℕ := its.countP isFinishedItem

/-- Helper: rounding an exact integer returns it. -/
lemma rhe_intCast (n : ℤ) : rhe ((n : ℚ)) = n := by
  unfold rhe
  simp

/-- Helper: rhe never falls below the floor. -/
lemma rhe_floor_le (x : ℚ) : ⌊x⌋ ≤ rhe x := by
  unfold rhe
  split_ifs <;> omega

/-- Helper: rhe never exceeds the floor plus one. -/
lemma rhe_le_floor_add_one (x : ℚ) : rhe x ≤ ⌊x⌋ + 1 := by
  unfold rhe
  split_ifs <;> omega

/-- Helper: rhe moves its input by at most one half, upper side. -/
lemma rhe_le_add_half (x : ℚ) : (rhe x : ℚ) ≤ x + 1/2 := by
  have hfl : (⌊x⌋ : ℚ) ≤ x := Int.floor_le x
  unfold rhe
  split_ifs with h1 h2 h3 <;> push_cast <;> linarith

/-- Helper: rhe moves its input by at most one half, lower side. -/
lemma le_rhe_add_half (x : ℚ) : x - 1/2 ≤ (rhe x : ℚ) := by
  have hfl : x < ⌊x⌋ + 1 := Int.lt_floor_add_one x
  unfold rhe
  split_ifs with h1 h2 h3 <;> push_cast <;> linarith

/-- Helper: rhe is monotone. -/
lemma rhe_mono {x y : ℚ} (h : x ≤ y) : rhe x ≤ rhe y := by
  rcases lt_or_le ⌊x⌋ ⌊y⌋ with hf | hf
  · calc rhe x ≤ ⌊x⌋ + 1 := rhe_le_floor_add_one x
      _ ≤ ⌊y⌋ := by omega
      _ ≤ rhe y := rhe_floor_le y
  · have hf2 : ⌊x⌋ = ⌊y⌋ := le_antisymm (Int.floor_mono h) hf
    have hr : x - (⌊x⌋ : ℚ) ≤ y - (⌊y⌋ : ℚ) := by
      rw [hf2]
      linarith
    unfold rhe
    rw [hf2] at hr ⊢
    split_ifs <;> first
      | omega
      | linarith

/-- Helper: positivity passes to the rounded value via the floor. -/
lemma rhe_nonneg {x : ℚ} (h : 0 ≤ x) : 0 ≤ rhe x := by
  have : (0 : ℤ) ≤ ⌊x⌋ := Int.floor_nonneg.mpr h
  calc (0 : ℤ) ≤ ⌊x⌋ := this
    _ ≤ rhe x := rhe_floor_le x

/-- Helper: floatRound on a positive input whose binade is known. -/
lemma floatRound_eq_of {q : ℚ} {e : ℤ} (h0 : 0 < q) (h1 : 2 ^ e ≤ q) (h2 : q < 2 ^ (e + 1)) :
    floatRound q = ((rhe (q * 2 ^ ((52 : ℤ) - e)) : ℤ) : ℚ) * 2 ^ (e - 52) := by
  have hb : (1 : ℕ) < 2 := by norm_num
  have hcast : ((2 : ℕ) : ℚ) = (2 : ℚ) := by norm_num
  have hlog : Int.log 2 q = e := by
    have hle : e ≤ Int.log 2 q := by
      have h1n : ((2 : ℕ) : ℚ) ^ e ≤ q := by rw [hcast]; exact h1
      calc e = Int.log 2 (((2 : ℕ) : ℚ) ^ e) := (Int.log_zpow hb e).symm
        _ ≤ Int.log 2 q := Int.log_mono_right (by rw [hcast]; positivity) h1n
    have hlt : Int.log 2 q < e + 1 := by
      have h3 : ((2 : ℕ) : ℚ) ^ Int.log 2 q ≤ q := Int.zpow_log_le_self hb h0
      have h4 : (2 : ℚ) ^ Int.log 2 q < 2 ^ (e + 1) := by
        rw [hcast] at h3
        exact lt_of_le_of_lt h3 h2
      exact (zpow_lt_zpow_iff_right₀ (by norm_num : (1 : ℚ) < 2)).mp h4
    omega
  unfold floatRound
  rw [if_neg (not_le.mpr h0), hlog]

/-- Helper: floatRound never returns a negative value. -/
lemma floatRound_nonneg (q : ℚ) : 0 ≤ floatRound q := by
  unfold floatRound
  split_ifs with h
  · exact le_refl 0
  · have hq : 0 < q := lt_of_not_le h
    have hx : 0 ≤ q * 2 ^ ((52 : ℤ) - Int.log 2 q) := by positivity
    have h1 : (0 : ℤ) ≤ rhe (q * 2 ^ ((52 : ℤ) - Int.log 2 q)) := rhe_nonneg hx
    have h2 : (0 : ℚ) ≤ 2 ^ (Int.log 2 q - 52) := by positivity
    exact mul_nonneg (by exact_mod_cast h1) h2

/-- Helper: the binade lower bound in base-2 form. -/
lemma two_zpow_log_le {q : ℚ} (hq : 0 < q) : (2 : ℚ) ^ Int.log 2 q ≤ q := by
  have := Int.zpow_log_le_self (b := 2) (by norm_num) hq
  rwa [show ((2 : ℕ) : ℚ) = (2 : ℚ) by norm_num] at this

/-- Helper: the binade upper bound in base-2 form. -/
lemma lt_two_zpow_succ_log (q : ℚ) : q < (2 : ℚ) ^ (Int.log 2 q + 1) := by
  have := Int.lt_zpow_succ_log_self (b := 2) (by norm_num) q
  rwa [show ((2 : ℕ) : ℚ) = (2 : ℚ) by norm_num] at this

/-- Helper: a power of two cast from the integers, as a zpow. -/
lemma cast_int_two_pow (n : ℕ) : ((2 ^ n : ℤ) : ℚ) = (2 : ℚ) ^ ((n : ℤ)) := by
  rw [Int.cast_pow, zpow_natCast]
  norm_num

/-- Helper: a rounded value stays below the top of the next binade. -/
lemma floatRound_le_binade {q : ℚ} {e : ℤ} (h0 : 0 < q) (h1 : 2 ^ e ≤ q)
    (h2 : q < 2 ^ (e + 1)) : floatRound q ≤ 2 ^ (e + 1) := by
  rw [floatRound_eq_of h0 h1 h2]
  have hs : (0 : ℚ) < 2 ^ ((52 : ℤ) - e) := by positivity
  have hx : q * 2 ^ ((52 : ℤ) - e) < 2 ^ ((53 : ℤ)) := by
    calc q * 2 ^ ((52 : ℤ) - e) < 2 ^ (e + 1) * 2 ^ ((52 : ℤ) - e) :=
          mul_lt_mul_of_pos_right h2 hs
      _ = 2 ^ ((53 : ℤ)) := by
          rw [← zpow_add₀ (by norm_num : (2 : ℚ) ≠ 0)]
          congr 1
          ring
  have hQ : ((rhe (q * 2 ^ ((52 : ℤ) - e)) : ℤ) : ℚ) < (2 : ℚ) ^ ((53 : ℤ)) + 1 := by
    have h5 := rhe_le_add_half (q * 2 ^ ((52 : ℤ) - e))
    linarith
  have hi : rhe (q * 2 ^ ((52 : ℤ) - e)) < 2 ^ 53 + 1 := by
    have h6 : ((rhe (q * 2 ^ ((52 : ℤ) - e)) : ℤ) : ℚ) < ((2 ^ 53 + 1 : ℤ) : ℚ) := by
      rw [Int.cast_add, Int.cast_one, cast_int_two_pow]
      exact hQ
    exact_mod_cast h6
  have hr : rhe (q * 2 ^ ((52 : ℤ) - e)) ≤ 2 ^ 53 := Int.lt_add_one_iff.mp hi
  calc ((rhe (q * 2 ^ ((52 : ℤ) - e)) : ℤ) : ℚ) * 2 ^ (e - 52)
      ≤ ((2 ^ 53 : ℤ) : ℚ) * 2 ^ (e - 52) := by
        apply mul_le_mul_of_nonneg_right _ (by positivity)
        exact_mod_cast hr
    _ = 2 ^ (e + 1) := by
        rw [cast_int_two_pow, ← zpow_add₀ (by norm_num : (2 : ℚ) ≠ 0)]
        congr 1
        ring

/-- Helper: a rounded value does not fall below its binade. -/
lemma binade_le_floatRound {q : ℚ} {e : ℤ} (h0 : 0 < q) (h1 : 2 ^ e ≤ q)
    (h2 : q < 2 ^ (e + 1)) : 2 ^ e ≤ floatRound q := by
  rw [floatRound_eq_of h0 h1 h2]
  have hs : (0 : ℚ) < 2 ^ ((52 : ℤ) - e) := by positivity
  have hx : ((2 ^ 52 : ℤ) : ℚ) ≤ q * 2 ^ ((52 : ℤ) - e) := by
    calc ((2 ^ 52 : ℤ) : ℚ) = (2 : ℚ) ^ ((52 : ℤ)) := cast_int_two_pow 52
      _ = 2 ^ e * 2 ^ ((52 : ℤ) - e) := by
          rw [← zpow_add₀ (by norm_num : (2 : ℚ) ≠ 0)]
          congr 1
          ring
      _ ≤ q * 2 ^ ((52 : ℤ) - e) := mul_le_mul_of_nonneg_right h1 hs.le
  have hr : (2 ^ 52 : ℤ) ≤ rhe (q * 2 ^ ((52 : ℤ) - e)) := by
    calc (2 ^ 52 : ℤ) = rhe ((2 ^ 52 : ℤ) : ℚ) := (rhe_intCast _).symm
      _ ≤ rhe (q * 2 ^ ((52 : ℤ) - e)) := rhe_mono hx
  calc (2 : ℚ) ^ e = ((2 ^ 52 : ℤ) : ℚ) * 2 ^ (e - 52) := by
        rw [cast_int_two_pow, ← zpow_add₀ (by norm_num : (2 : ℚ) ≠ 0)]
        congr 1
        ring
    _ ≤ ((rhe (q * 2 ^ ((52 : ℤ) - e)) : ℤ) : ℚ) * 2 ^ (e - 52) := by
        apply mul_le_mul_of_nonneg_right _ (by positivity)
        exact_mod_cast hr

/-- Helper: floatRound is monotone. -/
lemma floatRound_mono {x y : ℚ} (h : x ≤ y) : floatRound x ≤ floatRound y := by
  by_cases hx : x ≤ 0
  · have h1 : floatRound x = 0 := by
      unfold floatRound
      rw [if_pos hx]
    rw [h1]
    exact floatRound_nonneg y
  · have hx0 : 0 < x := lt_of_not_le hx
    have hy0 : 0 < y := lt_of_lt_of_le hx0 h
    have hee : Int.log 2 x ≤ Int.log 2 y := Int.log_mono_right hx0 h
    rcases eq_or_lt_of_le hee with heq | hlt
    · rw [floatRound_eq_of hx0 (two_zpow_log_le hx0) (lt_two_zpow_succ_log x),
        floatRound_eq_of hy0 (two_zpow_log_le hy0) (lt_two_zpow_succ_log y), ← heq]
      apply mul_le_mul_of_nonneg_right _ (by positivity)
      have harg : x * 2 ^ ((52 : ℤ) - Int.log 2 x) ≤ y * 2 ^ ((52 : ℤ) - Int.log 2 x) :=
        mul_le_mul_of_nonneg_right h (by positivity)
      exact_mod_cast rhe_mono harg
    · calc floatRound x ≤ 2 ^ (Int.log 2 x + 1) :=
            floatRound_le_binade hx0 (two_zpow_log_le hx0) (lt_two_zpow_succ_log x)
        _ ≤ 2 ^ Int.log 2 y := zpow_le_zpow_right₀ (by norm_num : (1 : ℚ) ≤ 2) (by omega)
        _ ≤ floatRound y := binade_le_floatRound hy0 (two_zpow_log_le hy0) (lt_two_zpow_succ_log y)

/-- Helper: negated-natural zpow as a fraction. -/
lemma two_zpow_neg (n : ℕ) : (2 : ℚ) ^ (-(n : ℤ)) = 1 / 2 ^ n := by
  rw [zpow_neg, zpow_natCast, one_div]

/-- Helper: rhe at a point strictly inside the lower half-interval. -/
lemma rhe_eq_of_lt_half {x : ℚ} {m : ℤ} (h1 : (m : ℚ) ≤ x) (h2 : x < (m : ℚ) + 1/2) :
    rhe x = m := by
  have hf : ⌊x⌋ = m := Int.floor_eq_iff.mpr ⟨h1, by linarith⟩
  unfold rhe
  rw [hf, if_pos (by linarith)]

/-- Helper: the double nearest to one is one. -/
lemma floatRound_one : floatRound 1 = 1 := by
  rw [floatRound_eq_of (e := 0) one_pos (by norm_num) (by norm_num)]
  rw [show ((52 : ℤ) - 0) = ((52 : ℕ) : ℤ) by norm_num, zpow_natCast,
    show (1 : ℚ) * 2 ^ (52 : ℕ) = ((2 ^ 52 : ℤ) : ℚ) by norm_num, rhe_intCast,
    show ((0 : ℤ) - 52) = -((52 : ℕ) : ℤ) by norm_num, two_zpow_neg]
  norm_num

/-- Helper: the double nearest to one hundred is one hundred. -/
lemma floatRound_hundred : floatRound 100 = 100 := by
  have hb1 : (2 : ℚ) ^ ((6 : ℤ)) ≤ 100 := by
    rw [show ((6 : ℤ)) = ((6 : ℕ) : ℤ) by norm_num, zpow_natCast]
    norm_num
  have hb2 : (100 : ℚ) < 2 ^ ((6 : ℤ) + 1) := by
    rw [show ((6 : ℤ) + 1) = ((7 : ℕ) : ℤ) by norm_num, zpow_natCast]
    norm_num
  rw [floatRound_eq_of (e := 6) (by norm_num) hb1 hb2]
  rw [show ((52 : ℤ) - 6) = ((46 : ℕ) : ℤ) by norm_num, zpow_natCast,
    show (100 : ℚ) * 2 ^ (46 : ℕ) = ((100 * 2 ^ 46 : ℤ) : ℚ) by norm_num, rhe_intCast,
    show ((6 : ℤ) - 52) = -((46 : ℕ) : ℤ) by norm_num, two_zpow_neg]
  norm_num

/-- Helper: the emitted progress value is never negative. -/
lemma pyProgress_nonneg (k n : ℕ) : 0 ≤ pyProgress k n := by
  unfold pyProgress pyTrunc
  rw [if_pos (floatRound_nonneg _)]
  exact Int.floor_nonneg.mpr (floatRound_nonneg _)

/-- Helper: the exact frame ratio is at most one. -/
lemma frame_ratio_le_one {k n : ℕ} (h : k ≤ n) : (k : ℚ) / (n : ℚ) ≤ 1 := by
  rcases Nat.eq_zero_or_pos n with h0 | h0
  · subst h0
    have hk : k = 0 := Nat.le_zero.mp h
    subst hk
    norm_num
  · rw [div_le_one (by exact_mod_cast h0)]
    exact_mod_cast h

/-- Helper: the emitted progress value never exceeds one hundred. -/
lemma pyProgress_le_hundred {k n : ℕ} (h : k ≤ n) : pyProgress k n ≤ 100 := by
  unfold pyProgress pyTrunc
  rw [if_pos (floatRound_nonneg _)]
  have h1 : floatRound ((k : ℚ) / (n : ℚ)) ≤ 1 := by
    calc floatRound ((k : ℚ) / (n : ℚ)) ≤ floatRound 1 := floatRound_mono (frame_ratio_le_one h)
      _ = 1 := floatRound_one
  have h2 : floatRound ((k : ℚ) / (n : ℚ)) * 100 ≤ 100 := by linarith
  have h3 : floatRound (floatRound ((k : ℚ) / (n : ℚ)) * 100) ≤ 100 := by
    calc floatRound (floatRound ((k : ℚ) / (n : ℚ)) * 100) ≤ floatRound 100 := floatRound_mono h2
      _ = 100 := floatRound_hundred
  calc ⌊floatRound (floatRound ((k : ℚ) / (n : ℚ)) * 100)⌋ ≤ ⌊(100 : ℚ)⌋ := Int.floor_mono h3
    _ = 100 := by norm_num

/-- Helper: emitted progress is monotone in the completed-frame count. -/
lemma pyProgress_mono {k j n : ℕ} (h : k ≤ j) : pyProgress k n ≤ pyProgress j n := by
  unfold pyProgress pyTrunc
  rw [if_pos (floatRound_nonneg _), if_pos (floatRound_nonneg _)]
  apply Int.floor_mono
  apply floatRound_mono
  apply mul_le_mul_of_nonneg_right _ (by norm_num : (0 : ℚ) ≤ 100)
  apply floatRound_mono
  rcases Nat.eq_zero_or_pos n with h0 | h0
  · subst h0
    norm_num
  · have hn : (0 : ℚ) < (n : ℚ) := by exact_mod_cast h0
    exact (div_le_div_iff_of_pos_right hn).mpr (by exact_mod_cast h)

/-- Helper: a full run reports one hundred percent. -/
lemma pyProgress_self {n : ℕ} (h : 1 ≤ n) : pyProgress n n = 100 := by
  have hn : ((n : ℚ)) ≠ 0 := Nat.cast_ne_zero.mpr (by omega)
  unfold pyProgress
  rw [div_self hn, floatRound_one, one_mul, floatRound_hundred]
  unfold pyTrunc
  rw [if_pos (by norm_num : (0 : ℚ) ≤ 100)]
  norm_num

/-- Helper: the double nearest to 29/100 as an explicit dyadic rational. -/
lemma floatRound_29_100 : floatRound ((29 : ℚ) / 100) = 5224175567749775 / 18014398509481984 := by
  have hb1 : (2 : ℚ) ^ ((-2 : ℤ)) ≤ 29 / 100 := by
    rw [show ((-2 : ℤ)) = -((2 : ℕ) : ℤ) by norm_num, two_zpow_neg]
    norm_num
  have hb2 : (29 : ℚ) / 100 < 2 ^ ((-2 : ℤ) + 1) := by
    rw [show ((-2 : ℤ) + 1) = -((1 : ℕ) : ℤ) by norm_num, two_zpow_neg]
    norm_num
  rw [floatRound_eq_of (by norm_num) hb1 hb2]
  rw [show ((52 : ℤ) - (-2)) = ((54 : ℕ) : ℤ) by norm_num, zpow_natCast]
  rw [rhe_eq_of_lt_half (m := 5224175567749775) (by norm_num) (by norm_num)]
  rw [show ((-2 : ℤ) - 52) = -((54 : ℕ) : ℤ) by norm_num, two_zpow_neg]
  norm_num

/-- Helper: one hundred times that double, rounded again, lands strictly
    below twenty-nine. -/
lemma floatRound_29_100_mul :
    floatRound ((5224175567749775 : ℚ) / 18014398509481984 * 100) =
      8162774324609023 / 281474976710656 := by
  have hb1 : (2 : ℚ) ^ ((4 : ℤ)) ≤ 5224175567749775 / 18014398509481984 * 100 := by
    rw [show ((4 : ℤ)) = ((4 : ℕ) : ℤ) by norm_num, zpow_natCast]
    norm_num
  have hb2 : (5224175567749775 : ℚ) / 18014398509481984 * 100 < 2 ^ ((4 : ℤ) + 1) := by
    rw [show ((4 : ℤ) + 1) = ((5 : ℕ) : ℤ) by norm_num, zpow_natCast]
    norm_num
  rw [floatRound_eq_of (by norm_num) hb1 hb2]
  rw [show ((52 : ℤ) - 4) = ((48 : ℕ) : ℤ) by norm_num, zpow_natCast]
  rw [rhe_eq_of_lt_half (m := 8162774324609023) (by norm_num) (by norm_num)]
  rw [show ((4 : ℤ) - 52) = -((48 : ℕ) : ℤ) by norm_num, two_zpow_neg]
  norm_num

/-- Helper: the progress value the code emits after frame 29 of 100. -/
lemma pyProgress_29_100 : pyProgress 29 100 = 28 := by
  unfold pyProgress
  rw [show ((29 : ℕ) : ℚ) / ((100 : ℕ) : ℚ) = (29 : ℚ) / 100 by norm_num]
  rw [floatRound_29_100, floatRound_29_100_mul]
  unfold pyTrunc
  rw [if_pos (by norm_num)]
  rw [Int.floor_eq_iff]
  norm_num

/-- Helper: a trace whose elements all fail p has countP p zero. -/
lemma countP_zero_of_all (l : List Item) (p : Item → Bool)
    (h : l.all (fun it => !p it) = true) : l.countP p = 0 := by
  apply List.countP_eq_zero.mpr
  intro a ha
  have h2 := List.all_eq_true.mp h a ha
  simpa using h2

/-- Helper: shape of every frame-loop trace element. -/
lemma loop_all (env : Env) (s : Settings) (exe fd ud : String) (total : ℕ) (q : Item → Bool)
    (hspawn : ∀ cmd, q (Item.act (Act.spawn Stage.frameUp cmd false)) = true)
    (hlog : ∀ m, q (Item.ev (Ev.log m)) = true)
    (hprog : ∀ v, q (Item.ev (Ev.progress v)) = true) :
    ∀ files i r, ((upscaleFramesLoop env s exe fd ud total files i r).1).all q = true := by
  intro files
  induction files with
  | nil =>
    intro i r
    simp [upscaleFramesLoop]
  | cons f rest ih =>
    intro i r
    unfold upscaleFramesLoop
    split_ifs with hc hw <;>
      simp [List.all_cons, List.all_append, hspawn, hlog, hprog, ih (i + 1) (r + 1)]

/-- Helper: shape of every extraction trace element. -/
lemma extract_all (env : Env) (vp fd : String) (q : Item → Bool)
    (hspawn : ∀ cmd, q (Item.act (Act.spawn Stage.extract cmd false)) = true) :
    ((extractFrames env vp fd).1).all q = true := by
  unfold extractFrames
  split
  · simp
  · split_ifs <;> simp [hspawn]

/-- Helper: shape of every reassembly trace element. -/
lemma reassemble_all (env : Env) (s : Settings) (ud op ov : String) (q : Item → Bool)
    (hspawnA : ∀ cmd, q (Item.act (Act.spawn Stage.audioTrack cmd false)) = true)
    (hspawnR : ∀ cmd, q (Item.act (Act.spawn Stage.reassemble cmd false)) = true)
    (hrm : ∀ pth, q (Item.act (Act.removeFile pth)) = true) :
    ((reassembleVideo env s ud op ov).1).all q = true := by
  unfold reassembleVideo
  split
  · simp
  · split_ifs <;> simp [hspawnA, hspawnR, hrm]

/-- Helper: shape of every model-resolution trace element. -/
lemma resolve_all (fs : FS) (s : Settings) (mdir : String) (q : Item → Bool)
    (hlog : ∀ m, q (Item.ev (Ev.log m)) = true) :
    ((resolveModel fs s mdir).1).all q = true := by
  unfold resolveModel
  dsimp only
  split_ifs
  · simp
  · split <;> simp [hlog]

/-- Helper: shape of every frame-stage trace element. -/
lemma upscaleFrames_all (env : Env) (s : Settings) (fd ud : String) (r : ℕ) (q : Item → Bool)
    (hspawn : ∀ cmd, q (Item.act (Act.spawn Stage.frameUp cmd false)) = true)
    (hlog : ∀ m, q (Item.ev (Ev.log m)) = true)
    (hprog : ∀ v, q (Item.ev (Ev.progress v)) = true) :
    ((upscaleFrames env s fd ud r).1).all q = true := by
  unfold upscaleFrames
  dsimp only
  split_ifs
  · simp
  · split
    · simp
    · simpa using loop_all env s _ fd ud _ q hspawn hlog hprog _ 0 r

/-- Helper: shape of every inner-pipeline trace element of a video job. -/
lemma inner_all (env : Env) (s : Settings) (fp op fd ud : String) (r : ℕ) (q : Item → Bool)
    (hlog : ∀ m, q (Item.ev (Ev.log m)) = true)
    (hres : ∀ pth, q (Item.ev (Ev.result pth)) = true)
    (hprog : ∀ v, q (Item.ev (Ev.progress v)) = true)
    (hspawn : ∀ st cmd, q (Item.act (Act.spawn st cmd false)) = true)
    (hrm : ∀ pth, q (Item.act (Act.removeFile pth)) = true) :
    ((upscaleVideoInner env s fp op fd ud r).1).all q = true := by
  have hx := extract_all env fp fd q (fun cmd => hspawn Stage.extract cmd)
  have hu := fun r2 => upscaleFrames_all env s fd ud r2 q (fun cmd => hspawn Stage.frameUp cmd) hlog hprog
  have hr := reassemble_all env s ud op fp q (fun cmd => hspawn Stage.audioTrack cmd)
    (fun cmd => hspawn Stage.reassemble cmd) hrm
  unfold upscaleVideoInner
  split
  · rename_i its1 e heq
    rw [heq] at hx
    simp_all [List.all_append, hlog]
  · rename_i its1 heq
    rw [heq] at hx
    split_ifs with hc
    · simp_all [List.all_append, hlog]
    · split
      · rename_i its2 r2 e heq2
        have hu2 := hu (r + 1)
        rw [heq2] at hu2
        simp_all [List.all_append, hlog]
      · rename_i its2 r2 heq2
        have hu2 := hu (r + 1)
        rw [heq2] at hu2
        split_ifs with hc2
        · simp_all [List.all_append, hlog]
        · split
          · rename_i its3 e heq3
            rw [heq3] at hr
            simp_all [List.all_append, hlog]
          · rename_i its3 heq3
            rw [heq3] at hr
            simp_all [List.all_append, hlog, hres]

/-- Helper: shape of every cleanup trace element. -/
lemma cleanup_all (env : Env) (q : Item → Bool)
    (hrmTree : ∀ d ok, q (Item.act (Act.removeTree d ok)) = true)
    (hlog : ∀ m, q (Item.ev (Ev.log m)) = true) :
    (cleanupItems env).all q = true := by
  unfold cleanupItems
  split_ifs <;> simp [hrmTree, hlog]

/-- Helper: shape of every trace element of a video job. -/
lemma video_all (env : Env) (s : Settings) (fp op : String) (q : Item → Bool)
    (hlog : ∀ m, q (Item.ev (Ev.log m)) = true)
    (hres : ∀ pth, q (Item.ev (Ev.result pth)) = true)
    (hprog : ∀ v, q (Item.ev (Ev.progress v)) = true)
    (hspawn : ∀ st cmd, q (Item.act (Act.spawn st cmd false)) = true)
    (hrm : ∀ pth, q (Item.act (Act.removeFile pth)) = true)
    (hrmTree : ∀ d ok, q (Item.act (Act.removeTree d ok)) = true)
    (hmk : ∀ d, q (Item.act (Act.mkTemp d)) = true)
    (herr : ∀ m, q (Item.ev (Ev.error m)) = true) :
    (upscaleVideo env s fp op).all q = true := by
  have hi := inner_all env s fp op (joinPath env.tempDir ("frames")) (joinPath env.tempDir ("upscaled")) 0
    q hlog hres hprog hspawn hrm
  have hc := cleanup_all env q hrmTree hlog
  unfold upscaleVideo
  dsimp only
  split <;> simp_all [List.all_append, List.all_cons, hmk, herr]

/-- Helper: shape of every trace element of an image job. -/
lemma image_all (env : Env) (s : Settings) (fp op : String) (q : Item → Bool)
    (hlog : ∀ m, q (Item.ev (Ev.log m)) = true)
    (hres : ∀ pth, q (Item.ev (Ev.result pth)) = true)
    (hspawn : ∀ cmd, q (Item.act (Act.spawn Stage.image cmd true)) = true)
    (herr : ∀ m, q (Item.ev (Ev.error m)) = true) :
    (upscaleImage env s fp op).all q = true := by
  unfold upscaleImage
  split
  · simp [herr]
  · rename_i exe heq1
    split
    · simp [herr]
    · rename_i mdir heq2
      have hx := resolve_all env.fs s mdir q hlog
      split
      · rename_i its e heq3
        rw [heq3] at hx
        simp_all [List.all_append, herr]
      · rename_i its mn heq3
        rw [heq3] at hx
        split_ifs <;> simp_all [List.all_append, List.all_cons, hlog, hspawn, herr, hres]

/-- Helper: unfolding one frame of the emitted progress sequence. -/
lemma progList_succ (s m t : ℕ) : progList s (m + 1) t = pyProgress s t :: progList (s + 1) m t := by
  unfold progList
  rw [List.range_succ_eq_map, List.map_cons, List.map_map]
  congr 1
  apply List.map_congr_left
  intro a _
  simp only [Function.comp_apply]
  congr 1
  omega

/-- Helper: progress extraction distributes over concatenation. -/
lemma progressValues_append (l1 l2 : Items) :
    progressValues (l1 ++ l2) = progressValues l1 ++ progressValues l2 := by
  unfold progressValues
  exact List.filterMap_append l1 l2 _

/-- Helper: a trace with no progress events has no progress values. -/
lemma progressValues_eq_nil_of_all (l : Items)
    (h : l.all (fun it =>
      match it with
      | Item.ev (Ev.progress _) => false
      | _ => true) = true) : progressValues l = [] := by
  unfold progressValues
  apply List.filterMap_eq_nil_iff.mpr
  intro a ha
  have h2 := List.all_eq_true.mp h a ha
  match a with
  | Item.ev Ev.finished => rfl
  | Item.ev (Ev.error _) => rfl
  | Item.ev (Ev.result _) => rfl
  | Item.ev (Ev.progress _) => simp at h2
  | Item.ev (Ev.log _) => rfl
  | Item.act _ => rfl

/-- Helper: the flag never reads true when cancellation never happens. -/
lemma flagAt_none {env : Env} (h : env.cancelFrom = none) (r : ℕ) : flagAt env r = false := by
  simp [flagAt, h]

/-- Helper: the flag read with a cancellation point. -/
lemma flagAt_some {env : Env} {c : ℕ} (h : env.cancelFrom = some c) (r : ℕ) :
    flagAt env r = decide (c ≤ r) := by
  simp [flagAt, h]

/-- Helper: progress emitted by the frame loop when never cancelled. -/
lemma loop_nocancel {env : Env} (s : Settings) (exe fd ud : String) (total : ℕ)
    (h : env.cancelFrom = none) :
    ∀ files i r, progressValues (upscaleFramesLoop env s exe fd ud total files i r).1 =
      progList (i + 1) files.length total := by
  intro files
  induction files with
  | nil =>
    intro i r
    simp [upscaleFramesLoop, progressValues, progList]
  | cons f rest ih =>
    intro i r
    unfold upscaleFramesLoop
    rw [flagAt_none h]
    dsimp only
    rw [if_neg (by simp)]
    rw [List.length_cons, progList_succ]
    have h1 := ih (i + 1) (r + 1)
    split_ifs with hw <;>
      simp only [progressValues, List.filterMap_cons, List.filterMap_append,
        List.filterMap_nil, List.nil_append, List.cons_append] at h1 ⊢ <;>
      simp [h1]

/-- Helper: progress and final read index of the frame loop when the flag
    first reads true at read c and the loop is long enough to see it. -/
lemma loop_cancel {env : Env} (s : Settings) (exe fd ud : String) (total c : ℕ)
    (h : env.cancelFrom = some c) :
    ∀ files i r, r ≤ c → c - r < files.length →
      progressValues (upscaleFramesLoop env s exe fd ud total files i r).1 =
          progList (i + 1) (c - r) total ∧
        (upscaleFramesLoop env s exe fd ud total files i r).2 = c + 1 := by
  intro files
  induction files with
  | nil =>
    intro i r hrc hlen
    simp at hlen
  | cons f rest ih =>
    intro i r hrc hlen
    unfold upscaleFramesLoop
    rw [flagAt_some h]
    rcases Nat.eq_or_lt_of_le hrc with heq | hlt
    · subst heq
      rw [if_pos (by simp)]
      constructor
      · simp [progressValues, Nat.sub_self, progList]
      · simp
    · rw [if_neg (by simp; omega)]
      dsimp only
      have hrec := ih (i + 1) (r + 1) (by omega) (by simp at hlen; omega)
      refine And.intro ?_ hrec.2
      rw [show c - r = (c - (r + 1)) + 1 by omega, progList_succ]
      have h1 := hrec.1
      split_ifs with hw <;>
        simp only [progressValues, List.filterMap_cons, List.filterMap_append,
          List.filterMap_nil, List.nil_append, List.cons_append] at h1 ⊢ <;>
        simp [h1]

/-- Helper: successful extraction produces exactly one untracked spawn. -/
lemma extractFrames_ok {env : Env} {ff : String} (vp fd : String)
    (hff : getFfmpegPath env.fs = Except.ok ff) (hret : env.extractRet = 0) :
    extractFrames env vp fd =
      ([Item.act (Act.spawn Stage.extract
        [ff, "-i", vp, "-q:v", "1", "-pix_fmt", "rgb24", joinPath fd ("frame_%06d.png")] false)],
       Except.ok ()) := by
  unfold extractFrames
  rw [hff]
  dsimp only
  rw [if_neg (by simp [hret])]

/-- Helper: the frame stage reduces to the loop when frames and the
    executable are present. -/
lemma upscaleFrames_eq {env : Env} {exe : String} (s : Settings) (fd ud : String) (r : ℕ)
    (hne : (extractedFrames env fd).isEmpty = false)
    (hexe : findRealesrganExecutable env.fs = some exe) :
    upscaleFrames env s fd ud r =
      ((upscaleFramesLoop env s exe fd ud (extractedFrames env fd).length (extractedFrames env fd) 0 r).1,
       (upscaleFramesLoop env s exe fd ud (extractedFrames env fd).length (extractedFrames env fd) 0 r).2,
       Except.ok ()) := by
  unfold upscaleFrames
  dsimp only
  rw [if_neg (by simp [hne]), hexe]

/-- Helper: no stage-tagged spawns in a trace whose elements all avoid the
    stage. -/
lemma stageSpawnCount_eq_zero_of_all (st : Stage) (l : Items)
    (h : l.all (fun it =>
      match it with
      | Item.act (Act.spawn st2 _ _) => !(st2 == st)
      | _ => true) = true) : stageSpawnCount st l = 0 := by
  unfold stageSpawnCount
  apply List.countP_eq_zero.mpr
  intro a ha
  have h2 := List.all_eq_true.mp h a ha
  match a with
  | Item.act (Act.spawn st2 cmd tr) => simpa using h2
  | Item.act (Act.removeTree _ _) => simp
  | Item.act (Act.removeFile _) => simp
  | Item.act (Act.mkTemp _) => simp
  | Item.ev _ => simp

/-- Helper: progress values of the empty trace. -/
@[simp]
lemma pV_nil : progressValues [] = [] := rfl

/-- Helper: actions contribute no progress values. -/
@[simp]
lemma pV_cons_act (a : Act) (l : Items) :
    progressValues (Item.act a :: l) = progressValues l := by
  simp [progressValues, List.filterMap_cons]

/-- Helper: log events contribute no progress values. -/
@[simp]
lemma pV_cons_log (m : String) (l : Items) :
    progressValues (Item.ev (Ev.log m) :: l) = progressValues l := by
  simp [progressValues, List.filterMap_cons]

/-- Helper: error events contribute no progress values. -/
@[simp]
lemma pV_cons_err (m : String) (l : Items) :
    progressValues (Item.ev (Ev.error m) :: l) = progressValues l := by
  simp [progressValues, List.filterMap_cons]

/-- Helper: result events contribute no progress values. -/
@[simp]
lemma pV_cons_res (p : String) (l : Items) :
    progressValues (Item.ev (Ev.result p) :: l) = progressValues l := by
  simp [progressValues, List.filterMap_cons]

/-- Helper: the finished event contributes no progress value. -/
@[simp]
lemma pV_cons_fin (l : Items) :
    progressValues (Item.ev Ev.finished :: l) = progressValues l := by
  simp [progressValues, List.filterMap_cons]

/-- Helper: a progress event contributes its value. -/
@[simp]
lemma pV_cons_prog (v : ℤ) (l : Items) :
    progressValues (Item.ev (Ev.progress v) :: l) = v :: progressValues l := by
  simp [progressValues, List.filterMap_cons]

attribute [simp] progressValues_append

/-- Helper: progress of a video trace is the progress of its inner
    pipeline. -/
lemma video_pV (env : Env) (s : Settings) (fp op : String) :
    progressValues (upscaleVideo env s fp op) =
      progressValues (upscaleVideoInner env s fp op (joinPath env.tempDir ("frames"))
        (joinPath env.tempDir ("upscaled")) 0).1 := by
  have hcl : progressValues (cleanupItems env) = [] :=
    progressValues_eq_nil_of_all _ (cleanup_all env _ (by intro d ok; rfl) (by intro m; rfl))
  unfold upscaleVideo
  dsimp only
  split <;> simp [hcl]

/-- Helper: progress of the inner pipeline of an uncancelled successful-
    extraction video run. -/
lemma inner_nocancel_pV {env : Env} (ff exe : String) (s : Settings) (fp op fd ud : String)
    (hc : env.cancelFrom = none)
    (hff : getFfmpegPath env.fs = Except.ok ff) (hret : env.extractRet = 0)
    (hne : (extractedFrames env fd).isEmpty = false)
    (hexe : findRealesrganExecutable env.fs = some exe) :
    progressValues (upscaleVideoInner env s fp op fd ud 0).1 =
      progList 1 (extractedFrames env fd).length (extractedFrames env fd).length := by
  have hloop := loop_nocancel s exe fd ud (extractedFrames env fd).length hc (extractedFrames env fd) 0 1
  unfold upscaleVideoInner
  rw [extractFrames_ok fp fd hff hret]
  dsimp only
  rw [flagAt_none hc]
  rw [if_neg (by simp)]
  rw [upscaleFrames_eq s fd ud 1 hne hexe]
  dsimp only
  rw [flagAt_none hc]
  rw [if_neg (by simp)]
  rcases hr : reassembleVideo env s ud op fp with ⟨its3, res3⟩
  have hits3 : progressValues its3 = [] := by
    have h3 := reassemble_all env s ud op fp
      (fun it => match it with | Item.ev (Ev.progress _) => false | _ => true)
      (by intro cmd; rfl) (by intro cmd; rfl) (by intro pth; rfl)
    rw [hr] at h3
    exact progressValues_eq_nil_of_all _ h3
  cases res3 with
  | error e =>
    dsimp only
    simp [hloop, hits3]
  | ok u =>
    dsimp only
    simp [hloop, hits3]

/-- Helper: stage spawn count of the empty trace. -/
@[simp]
lemma ssc_nil (st : Stage) : stageSpawnCount st [] = 0 := rfl

/-- Helper: events never count as stage spawns. -/
@[simp]
lemma ssc_cons_ev (st : Stage) (e : Ev) (l : Items) :
    stageSpawnCount st (Item.ev e :: l) = stageSpawnCount st l := by
  unfold stageSpawnCount
  rw [List.countP_cons]
  simp

/-- Helper: a spawn counts when its stage matches. -/
@[simp]
lemma ssc_cons_spawn (st st2 : Stage) (cmd : List String) (tr : Bool) (l : Items) :
    stageSpawnCount st (Item.act (Act.spawn st2 cmd tr) :: l) =
      stageSpawnCount st l + (if st2 = st then 1 else 0) := by
  unfold stageSpawnCount
  rw [List.countP_cons]
  by_cases h : st2 = st <;> simp [h]

/-- Helper: tree removals never count as stage spawns. -/
@[simp]
lemma ssc_cons_rmTree (st : Stage) (d : String) (ok : Bool) (l : Items) :
    stageSpawnCount st (Item.act (Act.removeTree d ok) :: l) = stageSpawnCount st l := by
  unfold stageSpawnCount
  rw [List.countP_cons]
  simp

/-- Helper: file removals never count as stage spawns. -/
@[simp]
lemma ssc_cons_rmFile (st : Stage) (p : String) (l : Items) :
    stageSpawnCount st (Item.act (Act.removeFile p) :: l) = stageSpawnCount st l := by
  unfold stageSpawnCount
  rw [List.countP_cons]
  simp

/-- Helper: workspace creation never counts as a stage spawn. -/
@[simp]
lemma ssc_cons_mkTemp (st : Stage) (d : String) (l : Items) :
    stageSpawnCount st (Item.act (Act.mkTemp d) :: l) = stageSpawnCount st l := by
  unfold stageSpawnCount
  rw [List.countP_cons]
  simp

/-- Helper: stage spawn count distributes over concatenation. -/
@[simp]
lemma ssc_append (st : Stage) (l1 l2 : Items) :
    stageSpawnCount st (l1 ++ l2) = stageSpawnCount st l1 + stageSpawnCount st l2 := by
  unfold stageSpawnCount
  rw [List.countP_append]

/-- Helper: error count of the empty trace. -/
@[simp]
lemma errorCount_nil : errorCount [] = 0 := rfl

/-- Helper: an error signal counts. -/
@[simp]
lemma errorCount_cons_err (m : String) (l : Items) :
    errorCount (Item.ev (Ev.error m) :: l) = errorCount l + 1 := by
  unfold errorCount
  rw [List.countP_cons]
  simp [isErrorItem]

/-- Helper: non-error elements do not count. -/
@[simp]
lemma errorCount_cons_other (it : Item) (l : Items) (h : isErrorItem it = false) :
    errorCount (it :: l) = errorCount l := by
  unfold errorCount
  rw [List.countP_cons]
  simp [h]

/-- Helper: error count distributes over concatenation. -/
@[simp]
lemma errorCount_append (l1 l2 : Items) :
    errorCount (l1 ++ l2) = errorCount l1 + errorCount l2 := by
  unfold errorCount
  rw [List.countP_append]

/-- Helper: finished count of the empty trace. -/
@[simp]
lemma finishedCount_nil : finishedCount [] = 0 := rfl

/-- Helper: the finished signal counts. -/
@[simp]
lemma finishedCount_cons_fin (l : Items) :
    finishedCount (Item.ev Ev.finished :: l) = finishedCount l + 1 := by
  unfold finishedCount
  rw [List.countP_cons]
  simp [isFinishedItem]

/-- Helper: other elements do not count as finished. -/
@[simp]
lemma finishedCount_cons_other (it : Item) (l : Items) (h : isFinishedItem it = false) :
    finishedCount (it :: l) = finishedCount l := by
  unfold finishedCount
  rw [List.countP_cons]
  simp [h]

/-- Helper: finished count distributes over concatenation. -/
@[simp]
lemma finishedCount_append (l1 l2 : Items) :
    finishedCount (l1 ++ l2) = finishedCount l1 + finishedCount l2 := by
  unfold finishedCount
  rw [List.countP_append]

/-- Helper: the image pipeline with no locatable upscaler emits exactly the
    missing-tool error. -/
lemma image_noexe {env : Env} (s : Settings) (fp op : String)
    (h : findRealesrganExecutable env.fs = none) :
    upscaleImage env s fp op =
      [Item.ev (Ev.error ("Image upscaling error: Real-ESRGAN executable not found. Please install Real-ESRGAN."))] := by
  unfold upscaleImage
  rw [h]

/-- Helper: the workspace removal attempt appears in every video trace. -/
lemma removeTree_mem_cleanup (env : Env) :
    Item.act (Act.removeTree env.tempDir env.rmtreeOk) ∈ cleanupItems env := by
  unfold cleanupItems
  split_ifs with h
  · simp [h]
  · simp [Bool.not_eq_true] at h
    simp [h]

/-- Helper: the workspace removal attempt appears in every video trace. -/
lemma removeTree_mem_video (env : Env) (s : Settings) (fp op : String) :
    Item.act (Act.removeTree env.tempDir env.rmtreeOk) ∈ upscaleVideo env s fp op := by
  have hmem := removeTree_mem_cleanup env
  unfold upscaleVideo
  dsimp only
  split <;> simp [hmem]

/-- Helper: a failed removal logs the cleanup warning. -/
lemma warnLog_mem_video (env : Env) (s : Settings) (fp op : String)
    (h : env.rmtreeOk = false) :
    Item.ev (Ev.log ("Warning: Could not clean up temporary files: " ++ env.rmtreeErrMsg)) ∈
      upscaleVideo env s fp op := by
  have hmem : Item.ev (Ev.log ("Warning: Could not clean up temporary files: " ++ env.rmtreeErrMsg)) ∈
      cleanupItems env := by
    unfold cleanupItems
    rw [h]
    simp
  unfold upscaleVideo
  dsimp only
  split <;> simp [hmem]

/-- Helper: the inner pipeline emits no error signals; errors travel as
    exceptions to the handler of _upscale_video. -/
lemma inner_errorCount (env : Env) (s : Settings) (fp op fd ud : String) (r : ℕ) :
    errorCount (upscaleVideoInner env s fp op fd ud r).1 = 0 := by
  apply countP_zero_of_all
  apply inner_all <;> intros <;> rfl

/-- Helper: the cleanup block emits no error signals. -/
lemma cleanup_errorCount (env : Env) : errorCount (cleanupItems env) = 0 := by
  apply countP_zero_of_all
  apply cleanup_all <;> intros <;> rfl

/-- Helper: a video trace has exactly one error signal when the pipeline
    raised and none otherwise, independent of cleanup failure. -/
lemma video_errorCount (env : Env) (s : Settings) (fp op : String) :
    errorCount (upscaleVideo env s fp op) =
      (match (upscaleVideoInner env s fp op (joinPath env.tempDir ("frames"))
          (joinPath env.tempDir ("upscaled")) 0).2.2 with
       | Except.ok _ => 0
       | Except.error _ => 1) := by
  have hin := inner_errorCount env s fp op (joinPath env.tempDir ("frames"))
    (joinPath env.tempDir ("upscaled")) 0
  have hcl := cleanup_errorCount env
  unfold upscaleVideo
  dsimp only
  split <;> rename_i heq <;> rw [heq] <;> simp [hin, hcl, isErrorItem]

/-- Helper: a video trace never emits finished; run() does. -/
lemma video_finishedCount (env : Env) (s : Settings) (fp op : String) :
    finishedCount (upscaleVideo env s fp op) = 0 := by
  apply countP_zero_of_all
  apply video_all <;> intros <;> rfl

/-- Helper: an image trace never emits finished; run() does. -/
lemma image_finishedCount (env : Env) (s : Settings) (fp op : String) :
    finishedCount (upscaleImage env s fp op) = 0 := by
  apply countP_zero_of_all
  apply image_all <;> intros <;> rfl

/-- Helper: stage spawn counts of the video trace equal those of its
    inner pipeline. -/
lemma video_stageCount (env : Env) (s : Settings) (fp op : String) (st : Stage) :
    stageSpawnCount st (upscaleVideo env s fp op) =
      stageSpawnCount st (upscaleVideoInner env s fp op (joinPath env.tempDir ("frames"))
        (joinPath env.tempDir ("upscaled")) 0).1 := by
  have hcl : stageSpawnCount st (cleanupItems env) = 0 := by
    apply stageSpawnCount_eq_zero_of_all
    apply cleanup_all <;> intros <;> rfl
  unfold upscaleVideo
  dsimp only
  split <;> simp [hcl]

/-- Helper: the inner pipeline of a video run cancelled right after the
    k-th frame completes: k progress values, no reassembly and no audio
    invocation, and a normal (non-error) outcome. -/
lemma inner_cancel_char {env : Env} (ff exe : String) (s : Settings) (fp op fd ud : String) (k : ℕ)
    (hc : env.cancelFrom = some (k + 1))
    (hff : getFfmpegPath env.fs = Except.ok ff) (hret : env.extractRet = 0)
    (hne : (extractedFrames env fd).isEmpty = false)
    (hexe : findRealesrganExecutable env.fs = some exe)
    (hkn : k < (extractedFrames env fd).length) :
    progressValues (upscaleVideoInner env s fp op fd ud 0).1 =
        progList 1 k (extractedFrames env fd).length ∧
      stageSpawnCount Stage.reassemble (upscaleVideoInner env s fp op fd ud 0).1 = 0 ∧
      stageSpawnCount Stage.audioTrack (upscaleVideoInner env s fp op fd ud 0).1 = 0 ∧
      (upscaleVideoInner env s fp op fd ud 0).2.2 = Except.ok () := by
  have hloop := loop_cancel s exe fd ud (extractedFrames env fd).length (k + 1) hc
    (extractedFrames env fd) 0 1 (by omega) (by omega)
  rw [show k + 1 - 1 = k from by omega] at hloop
  have hre : stageSpawnCount Stage.reassemble
      (upscaleFramesLoop env s exe fd ud (extractedFrames env fd).length (extractedFrames env fd) 0 1).1 = 0 := by
    apply stageSpawnCount_eq_zero_of_all
    exact loop_all env s exe fd ud (extractedFrames env fd).length _
      (by intro cmd; rfl) (by intro m; rfl) (by intro v; rfl) (extractedFrames env fd) 0 1
  have hau : stageSpawnCount Stage.audioTrack
      (upscaleFramesLoop env s exe fd ud (extractedFrames env fd).length (extractedFrames env fd) 0 1).1 = 0 := by
    apply stageSpawnCount_eq_zero_of_all
    exact loop_all env s exe fd ud (extractedFrames env fd).length _
      (by intro cmd; rfl) (by intro m; rfl) (by intro v; rfl) (extractedFrames env fd) 0 1
  unfold upscaleVideoInner
  rw [extractFrames_ok fp fd hff hret]
  dsimp only
  rw [flagAt_some hc]
  rw [if_neg (by simp)]
  rw [upscaleFrames_eq s fd ud 1 hne hexe]
  dsimp only
  rw [hloop.2]
  rw [flagAt_some hc]
  rw [if_pos (by simp)]
  refine And.intro ?_ (And.intro ?_ (And.intro ?_ rfl))
  · simpa using hloop.1
  · simp [hre]
  · simp [hau]

/-- Helper: spawn count of the empty trace. -/
@[simp]
lemma spawnCount_nil : spawnCount [] = 0 := rfl

/-- Helper: events are not spawns. -/
@[simp]
lemma spawnCount_cons_ev (e : Ev) (l : Items) :
    spawnCount (Item.ev e :: l) = spawnCount l := by
  unfold spawnCount
  rw [List.countP_cons]
  simp

/-- Helper: a spawn action counts once. -/
@[simp]
lemma spawnCount_cons_spawn (st : Stage) (cmd : List String) (tr : Bool) (l : Items) :
    spawnCount (Item.act (Act.spawn st cmd tr) :: l) = spawnCount l + 1 := by
  unfold spawnCount
  rw [List.countP_cons]
  simp

/-- Helper: tree removal is not a spawn. -/
@[simp]
lemma spawnCount_cons_rmTree (d : String) (ok : Bool) (l : Items) :
    spawnCount (Item.act (Act.removeTree d ok) :: l) = spawnCount l := by
  unfold spawnCount
  rw [List.countP_cons]
  simp

/-- Helper: file removal is not a spawn. -/
@[simp]
lemma spawnCount_cons_rmFile (p : String) (l : Items) :
    spawnCount (Item.act (Act.removeFile p) :: l) = spawnCount l := by
  unfold spawnCount
  rw [List.countP_cons]
  simp

/-- Helper: workspace creation is not a spawn. -/
@[simp]
lemma spawnCount_cons_mkTemp (d : String) (l : Items) :
    spawnCount (Item.act (Act.mkTemp d) :: l) = spawnCount l := by
  unfold spawnCount
  rw [List.countP_cons]
  simp

/-- Helper: spawn count distributes over concatenation. -/
@[simp]
lemma spawnCount_append (l1 l2 : Items) :
    spawnCount (l1 ++ l2) = spawnCount l1 + spawnCount l2 := by
  unfold spawnCount
  rw [List.countP_append]

/-- Helper: total spawns of the video trace equal those of its inner
    pipeline. -/
lemma video_spawnCount (env : Env) (s : Settings) (fp op : String) :
    spawnCount (upscaleVideo env s fp op) =
      spawnCount (upscaleVideoInner env s fp op (joinPath env.tempDir ("frames"))
        (joinPath env.tempDir ("upscaled")) 0).1 := by
  have hcl : spawnCount (cleanupItems env) = 0 := by
    unfold cleanupItems
    split_ifs <;> simp
  unfold upscaleVideo
  dsimp only
  split <;> simp [hcl]

/-- Helper: failed extraction still spawns once, then raises. -/
lemma extractFrames_fail {env : Env} {ff : String} (vp fd : String)
    (hff : getFfmpegPath env.fs = Except.ok ff) (hret : env.extractRet ≠ 0) :
    extractFrames env vp fd =
      ([Item.act (Act.spawn Stage.extract
        [ff, "-i", vp, "-q:v", "1", "-pix_fmt", "rgb24", joinPath fd ("frame_%06d.png")] false)],
       Except.error ("Frame extraction failed: " ++ env.extractErr)) := by
  unfold extractFrames
  rw [hff]
  dsimp only
  rw [if_pos (by simp [hret])]

/-- Helper: missing ffmpeg raises before any spawn. -/
lemma extractFrames_noff {env : Env} {e : String} (vp fd : String)
    (hff : getFfmpegPath env.fs = Except.error e) :
    extractFrames env vp fd = ([], Except.error e) := by
  unfold extractFrames
  rw [hff]

/-- Helper: an empty frame set raises before any frame work. -/
lemma upscaleFrames_empty {env : Env} (s : Settings) (fd ud : String) (r : ℕ)
    (hne : (extractedFrames env fd).isEmpty = true) :
    upscaleFrames env s fd ud r = ([], r, Except.error ("No frames were extracted from the video")) := by
  unfold upscaleFrames
  dsimp only
  rw [if_pos (by simp [hne])]

/-- Helper: a missing upscaler raises before any frame work. -/
lemma upscaleFrames_noexe {env : Env} (s : Settings) (fd ud : String) (r : ℕ)
    (hne : (extractedFrames env fd).isEmpty = false)
    (hno : findRealesrganExecutable env.fs = none) :
    upscaleFrames env s fd ud r = ([], r, Except.error ("Real-ESRGAN executable not found")) := by
  unfold upscaleFrames
  dsimp only
  rw [if_neg (by simp [hne]), hno]

/-- Helper: process_next_file never changes the counter. -/
lemma processNextFile_processed (b : BatchSt) : (processNextFile b).processed = b.processed := by
  unfold processNextFile
  split_ifs <;> rfl

/-- Helper: process_next_file never changes the total. -/
lemma processNextFile_total (b : BatchSt) : (processNextFile b).total = b.total := by
  unfold processNextFile
  split_ifs <;> rfl

/-- Helper: every delivered signal increments the counter by exactly one. -/
lemma deliver_processed (b : BatchSt) (e : JobEv) : (deliver b e).processed = b.processed + 1 := by
  cases e <;> simp [deliver, onFileFinished, onError, processNextFile_processed]

/-- Helper: delivery never changes the total. -/
lemma deliver_total (b : BatchSt) (e : JobEv) : (deliver b e).total = b.total := by
  cases e <;> simp [deliver, onFileFinished, onError, processNextFile_total]

/-- Helper: the counter after a delivered sequence. -/
lemma deliverAll_processed (b : BatchSt) (evs : List JobEv) :
    (deliverAll b evs).processed = b.processed + evs.length := by
  induction evs generalizing b with
  | nil => simp [deliverAll]
  | cons e es ih =>
    unfold deliverAll
    rw [ih, deliver_processed]
    simp
    omega

/-- Helper: the total after a delivered sequence. -/
lemma deliverAll_total (b : BatchSt) (evs : List JobEv) :
    (deliverAll b evs).total = b.total := by
  induction evs generalizing b with
  | nil => simp [deliverAll]
  | cons e es ih =>
    unfold deliverAll
    rw [ih, deliver_total]

/-- Helper: start_upscaling resets the counter to zero. -/
lemma startBatch_processed (t : ℕ) (ho : Bool) : (startBatch t ho).processed = 0 := by
  unfold startBatch
  rw [processNextFile_processed]

/-- Helper: start_upscaling records the enqueued total. -/
lemma startBatch_total (t : ℕ) (ho : Bool) : (startBatch t ho).total = t := by
  unfold startBatch
  rw [processNextFile_total]

/-- Helper: length of the progress sequence. -/
lemma progList_length (s m t : ℕ) : (progList s m t).length = m := by
  simp [progList]

/-- Helper: indexing the progress sequence. -/
lemma progList_getElem (s m t j : ℕ) (h : j < m) :
    (progList s m t)[j]? = some (pyProgress (s + j) t) := by
  simp [progList, List.getElem?_map, List.getElem?_range, h]

/-- C2: on_error (main_window.py lines 453-457) increments the
    completed-jobs counter by exactly one and dispatches the next queued job
    through process_next_file, exactly as the success handler
    on_file_finished does: the two handlers are the same state transformer.
    In a batch of three jobs whose second job fails (delivering its error
    and finished signals), the third job (index 2) is still dispatched, the
    batch never aborts, and a completion summary covering total_files = 3 is
    reported. -/
theorem C2_error_advances_like_success :
    (∀ m b, onError m b = onFileFinished b) ∧
    2 ∈ (deliverAll (startBatch 3 true)
      [JobEv.finished, JobEv.error ("job two failed"), JobEv.finished, JobEv.finished]).dispatched ∧
    (deliverAll (startBatch 3 true)
      [JobEv.finished, JobEv.error ("job two failed"), JobEv.finished, JobEv.finished]).total = 3 ∧
    1 ≤ (deliverAll (startBatch 3 true)
      [JobEv.finished, JobEv.error ("job two failed"), JobEv.finished, JobEv.finished]).completedReports := by
  refine ⟨fun m b => rfl, by decide, by decide, by decide⟩

/-- C8: the derived output file name (main_window.py lines 402-417) is
    stem plus _upscaled_ plus scale plus extension, with the original
    extension kept for video inputs and a dot plus the configured image
    format used otherwise, and the scale derived from the model id by
    first-match substring priority x2, x3, x4 with default x4; this agrees
    with the spec-side formula on every input, and in particular clip.mp4
    with an x3 model yields clip_upscaled_x3.mp4 and photo.png with a
    x4plus model and webp format yields photo_upscaled_x4.webp. -/
theorem C8_output_filename (fileName model fmt : String) :
    outputFilename fileName model fmt = specOutputFilename fileName model fmt ∧
    outputFilename ("clip.mp4") ("realesr-animevideov3-x3") ("jpg") = "clip_upscaled_x3.mp4" ∧
    outputFilename ("photo.png") ("realesrgan-x4plus") ("webp") = "photo_upscaled_x4.webp" := by
  refine ⟨?_, by decide, by decide⟩
  unfold outputFilename specOutputFilename specScaleOf
  dsimp only
  split_ifs <;> rfl

/-- C10: every run of a worker, image or video, over every environment
    (success, internal error, cancellation, cleanup failure), emits the
    finished signal exactly once, as the last element of its trace; hence
    every error signal of the run precedes its finished signal. -/
theorem C10_finished_exactly_once (env : Env) (s : Settings) (fp op : String) :
    ∃ front, runWorker env s fp op = front ++ [Item.ev Ev.finished] ∧ finishedCount front = 0 := by
  refine ⟨if isVideoFile fp then upscaleVideo env s fp op else upscaleImage env s fp op, rfl, ?_⟩
  by_cases h : isVideoFile fp = true
  · rw [if_pos h]
    exact video_finishedCount env s fp op
  · rw [if_neg (by simp [h])]
    exact image_finishedCount env s fp op

/-- C1 (counterexample): the claim fails on the code.  A failing job
    delivers both its error signal and its finished signal to the
    controller (workers.py emits error from the pipeline handler and
    finished from the finally clause, and main_window.py wires both to
    counter-incrementing slots), so a batch of one failing job drives
    processed_files to 2, exceeding total_files = 1. -/
theorem C1_counterexample :
    batchEvents (runWorker envBare settings0 ("in.jpg") ("out.jpg")) =
      [JobEv.error ("Image upscaling error: Real-ESRGAN executable not found. Please install Real-ESRGAN."),
       JobEv.finished] ∧
    (deliverAll (startBatch 1 true)
      [JobEv.error ("Image upscaling error: Real-ESRGAN executable not found. Please install Real-ESRGAN."),
       JobEv.finished]).processed = 2 ∧
    ¬((deliverAll (startBatch 1 true)
      [JobEv.error ("Image upscaling error: Real-ESRGAN executable not found. Please install Real-ESRGAN."),
       JobEv.finished]).processed ≤
      (deliverAll (startBatch 1 true)
        [JobEv.error ("Image upscaling error: Real-ESRGAN executable not found. Please install Real-ESRGAN."),
         JobEv.finished]).total) := by
  refine ⟨by decide, by decide, by decide⟩

/-- C1 (amended): the completed-jobs counter is monotonically
    non-decreasing along every delivered signal sequence, and it stays
    bounded by the total whenever at most total_jobs signals are delivered
    (in particular when every job succeeds, each delivering exactly its one
    finished signal); with job errors the code delivers two signals per
    failed job and the bound can be exceeded. -/
theorem C1_amended_monotone_bounded (total : ℕ) (evs : List JobEv) :
    (∀ j, (deliverAll (startBatch total true) (evs.take j)).processed ≤
      (deliverAll (startBatch total true) evs).processed) ∧
    (evs.length ≤ total →
      (deliverAll (startBatch total true) evs).processed ≤
        (deliverAll (startBatch total true) evs).total) := by
  constructor
  · intro j
    rw [deliverAll_processed, deliverAll_processed, startBatch_processed]
    have := List.length_take j evs
    simp only [this]
    omega
  · intro h
    rw [deliverAll_processed, deliverAll_total, startBatch_processed, startBatch_total]
    omega

/-- C1 (witness): a two-job batch delivering two success signals stays
    within its total. -/
theorem C1_amended_witness :
    ([JobEv.finished, JobEv.finished].length ≤ 2) ∧
    (deliverAll (startBatch 2 true) [JobEv.finished, JobEv.finished]).processed ≤
      (deliverAll (startBatch 2 true) [JobEv.finished, JobEv.finished]).total :=
  ⟨by decide, (C1_amended_monotone_bounded 2 [JobEv.finished, JobEv.finished]).2 (by decide)⟩

/-- C6 (counterexample): a video job runs its extraction process without
    storing it in self.current_process (the spawn is untracked: only the
    image-path Popen at workers.py line 131 assigns current_process), so a
    cancel() issued while extraction runs finds current_process = None and
    issues no terminate, wait or kill at all — the claim fails for the
    frame-extraction stage (and every other video stage). -/
theorem C6_counterexample :
    Item.act (Act.spawn Stage.extract
      ["/usr/bin/ffmpeg", "-i", "in.mp4", "-q:v", "1", "-pix_fmt", "rgb24",
       "/tmp/ws/frames/frame_%06d.png"] false) ∈
      runWorker envVidNoUp settings0 ("in.mp4") ("out.mp4") ∧
    cancelWorker none true true = (true, []) := by
  refine ⟨by decide, rfl⟩

/-- C6 (amended): cancel() always sets the cooperative flag; it signals
    terminate, a five-second bounded wait, and a kill on failure, but only
    to the process stored in self.current_process.  Only the image
    invocation stores its process there; every spawn of the video pipeline
    (extraction, per-frame upscaling, audio copy, reassembly) is untracked,
    so those processes are never signalled and video cancellation takes
    effect only at the cooperative flag checks. -/
theorem C6_amended_cancel_signals (env : Env) (s : Settings) (fp op : String) (tOk wOk : Bool) :
    spawnsUntracked (upscaleVideo env s fp op) = true ∧
    spawnsTracked (upscaleImage env s fp op) = true ∧
    cancelWorker none tOk wOk = (true, []) ∧
    (cancelWorker (some ()) tOk wOk).1 = true ∧
    PAct.terminate ∈ (cancelWorker (some ()) tOk wOk).2 := by
  refine ⟨?_, ?_, rfl, rfl, ?_⟩
  · unfold spawnsUntracked
    apply video_all <;> intros <;> rfl
  · unfold spawnsTracked
    apply image_all <;> intros <;> rfl
  · unfold cancelWorker
    simp

/-- C5: for every video job and every environment — success, handled error,
    cancellation at any point, every exit-code combination — the workspace
    removal is attempted inside the trace (actually removed whenever the OS
    removal works, env.rmtreeOk), before the terminal finished signal which
    closes every trace; a removal failure adds the non-fatal warning log
    entry; and the error signals are exactly those of the pipeline outcome
    (none when the pipeline completed or was cancelled, one when it raised),
    so a cleanup failure is never escalated into a job error. -/
theorem C5_workspace_destroyed (env : Env) (s : Settings) (fp op : String)
    (hv : isVideoFile fp = true) :
    Item.act (Act.removeTree env.tempDir env.rmtreeOk) ∈ runWorker env s fp op ∧
    (runWorker env s fp op).getLast? = some (Item.ev Ev.finished) ∧
    (env.rmtreeOk = false →
      Item.ev (Ev.log ("Warning: Could not clean up temporary files: " ++ env.rmtreeErrMsg)) ∈
        runWorker env s fp op) ∧
    errorCount (runWorker env s fp op) ≤ 1 ∧
    ((upscaleVideoInner env s fp op (joinPath env.tempDir ("frames"))
        (joinPath env.tempDir ("upscaled")) 0).2.2 = Except.ok () →
      errorCount (runWorker env s fp op) = 0) := by
  have hfin : errorCount [Item.ev Ev.finished] = 0 := by
    rw [errorCount_cons_other _ _ (by rfl), errorCount_nil]
  have hcount : errorCount (runWorker env s fp op) =
      (match (upscaleVideoInner env s fp op (joinPath env.tempDir ("frames"))
          (joinPath env.tempDir ("upscaled")) 0).2.2 with
       | Except.ok _ => 0
       | Except.error _ => 1) := by
    unfold runWorker
    rw [if_pos hv, errorCount_append, hfin, video_errorCount]
    omega
  refine ⟨?_, ?_, ?_, ?_, ?_⟩
  · unfold runWorker
    rw [if_pos hv]
    exact List.mem_append_left _ (removeTree_mem_video env s fp op)
  · unfold runWorker
    rw [List.getLast?_concat]
  · intro h
    unfold runWorker
    rw [if_pos hv]
    exact List.mem_append_left _ (warnLog_mem_video env s fp op h)
  · rw [hcount]
    rcases (upscaleVideoInner env s fp op (joinPath env.tempDir ("frames"))
      (joinPath env.tempDir ("upscaled")) 0).2.2 with e | u <;> simp
  · intro hok
    rw [hcount, hok]

/-- C5 (witness): a video job without an upscaler whose workspace removal
    also fails: the removal is attempted, the warning is logged, and the one
    error signal is the pipeline error, not the cleanup failure. -/
theorem C5_workspace_destroyed_witness :
    isVideoFile ("in.mp4") = true ∧
    (Item.act (Act.removeTree envVidWarn.tempDir envVidWarn.rmtreeOk) ∈
        runWorker envVidWarn settings0 ("in.mp4") ("out.mp4") ∧
      (runWorker envVidWarn settings0 ("in.mp4") ("out.mp4")).getLast? = some (Item.ev Ev.finished) ∧
      (envVidWarn.rmtreeOk = false →
        Item.ev (Ev.log ("Warning: Could not clean up temporary files: " ++ envVidWarn.rmtreeErrMsg)) ∈
          runWorker envVidWarn settings0 ("in.mp4") ("out.mp4")) ∧
      errorCount (runWorker envVidWarn settings0 ("in.mp4") ("out.mp4")) ≤ 1 ∧
      ((upscaleVideoInner envVidWarn settings0 ("in.mp4") ("out.mp4")
          (joinPath envVidWarn.tempDir ("frames")) (joinPath envVidWarn.tempDir ("upscaled")) 0).2.2 =
          Except.ok () →
        errorCount (runWorker envVidWarn settings0 ("in.mp4") ("out.mp4")) = 0)) :=
  ⟨by decide, C5_workspace_destroyed envVidWarn settings0 ("in.mp4") ("out.mp4") (by decide)⟩

/-- Helper: the inner video pipeline with no locatable upscaler and no
    cancellation always raises, spawns nothing beyond possibly the one
    extraction run, and never reaches the per-frame, audio or reassembly
    stages. -/
lemma inner_noexe_char (env : Env) (s : Settings) (fp op fd ud : String)
    (hno : findRealesrganExecutable env.fs = none) (hc : env.cancelFrom = none) :
    (∃ e, (upscaleVideoInner env s fp op fd ud 0).2.2 = Except.error e) ∧
    stageSpawnCount Stage.frameUp (upscaleVideoInner env s fp op fd ud 0).1 = 0 ∧
    stageSpawnCount Stage.reassemble (upscaleVideoInner env s fp op fd ud 0).1 = 0 ∧
    stageSpawnCount Stage.audioTrack (upscaleVideoInner env s fp op fd ud 0).1 = 0 ∧
    spawnCount (upscaleVideoInner env s fp op fd ud 0).1 ≤ 1 := by
  rcases hff : getFfmpegPath env.fs with e | ff
  · unfold upscaleVideoInner
    rw [extractFrames_noff fp fd hff]
    dsimp only
    refine ⟨⟨e, rfl⟩, by simp, by simp, by simp, by simp⟩
  · by_cases hret : env.extractRet = 0
    · unfold upscaleVideoInner
      rw [extractFrames_ok fp fd hff hret]
      dsimp only
      rw [flagAt_none hc]
      rw [if_neg (by simp)]
      by_cases hne : (extractedFrames env fd).isEmpty = true
      · rw [upscaleFrames_empty s fd ud 1 hne]
        dsimp only
        refine ⟨⟨_, rfl⟩, by simp, by simp, by simp, by simp⟩
      · rw [upscaleFrames_noexe s fd ud 1 (Bool.not_eq_true _ |>.mp hne) hno]
        dsimp only
        refine ⟨⟨_, rfl⟩, by simp, by simp, by simp, by simp⟩
    · unfold upscaleVideoInner
      rw [extractFrames_fail fp fd hff hret]
      dsimp only
      refine ⟨⟨_, rfl⟩, by simp, by simp, by simp, by simp⟩

/-- C3 (counterexample): the claim fails on the code for video jobs.  In an
    environment whose upscaler cannot be located in any probed location but
    whose ffmpeg is on PATH, a video job still performs one external
    process invocation — the frame extraction — before discovering the
    missing upscaler, while emitting exactly one error and one finished
    signal; so the claimed zero invocations is wrong. -/
theorem C3_counterexample :
    findRealesrganExecutable envVidNoUp.fs = none ∧
    errorCount (runWorker envVidNoUp settings0 ("in.mp4") ("out.mp4")) = 1 ∧
    finishedCount (runWorker envVidNoUp settings0 ("in.mp4") ("out.mp4")) = 1 ∧
    spawnCount (runWorker envVidNoUp settings0 ("in.mp4") ("out.mp4")) = 1 ∧
    ¬(spawnCount (runWorker envVidNoUp settings0 ("in.mp4") ("out.mp4")) = 0) := by
  refine ⟨by decide, by decide, by decide, by decide, by decide⟩

/-- C3 (amended): when the upscaler cannot be located in any probed
    location and the job is not cancelled, every job emits exactly one
    error signal and one finished signal; an image job performs zero
    external process invocations; a video job never invokes the upscaler,
    the audio copy or the reassembly (it performs at most the single frame
    extraction invocation, which precedes the missing-upscaler discovery). -/
theorem C3_amended_missing_upscaler (env : Env) (s : Settings) (fp op : String)
    (hno : findRealesrganExecutable env.fs = none) (hc : env.cancelFrom = none) :
    (isVideoFile fp = false →
      errorCount (runWorker env s fp op) = 1 ∧
      finishedCount (runWorker env s fp op) = 1 ∧
      spawnCount (runWorker env s fp op) = 0) ∧
    (isVideoFile fp = true →
      errorCount (runWorker env s fp op) = 1 ∧
      finishedCount (runWorker env s fp op) = 1 ∧
      stageSpawnCount Stage.frameUp (runWorker env s fp op) = 0 ∧
      stageSpawnCount Stage.reassemble (runWorker env s fp op) = 0 ∧
      stageSpawnCount Stage.audioTrack (runWorker env s fp op) = 0 ∧
      spawnCount (runWorker env s fp op) ≤ 1) := by
  constructor
  · intro hplain
    unfold runWorker
    rw [if_neg (by simp [hplain]), image_noexe s fp op hno]
    refine ⟨by simp [isErrorItem], ?_, by simp⟩
    rw [finishedCount_append]
    simp [isFinishedItem]
  · intro hvid
    have hchar := inner_noexe_char env s fp op (joinPath env.tempDir ("frames"))
      (joinPath env.tempDir ("upscaled")) hno hc
    obtain ⟨⟨e, herr⟩, hfu, hre, hau, hsc⟩ := hchar
    have hfin1 : finishedCount (runWorker env s fp op) = 1 := by
      unfold runWorker
      rw [if_pos hvid, finishedCount_append, video_finishedCount]
      simp
    refine ⟨?_, hfin1, ?_, ?_, ?_, ?_⟩
    · unfold runWorker
      rw [if_pos hvid, errorCount_append, video_errorCount, herr]
      rw [errorCount_cons_other _ _ (by rfl), errorCount_nil]
    · unfold runWorker
      rw [if_pos hvid, ssc_append, video_stageCount, hfu]
      simp
    · unfold runWorker
      rw [if_pos hvid, ssc_append, video_stageCount, hre]
      simp
    · unfold runWorker
      rw [if_pos hvid, ssc_append, video_stageCount, hau]
      simp
    · unfold runWorker
      rw [if_pos hvid, spawnCount_append, video_spawnCount]
      simpa using hsc

/-- C3 (witness): the amended statement at the concrete
    ffmpeg-only environment for a video input. -/
theorem C3_amended_missing_upscaler_witness :
    findRealesrganExecutable envVidNoUp.fs = none ∧ envVidNoUp.cancelFrom = none ∧
    (isVideoFile ("in.mp4") = true →
      errorCount (runWorker envVidNoUp settings0 ("in.mp4") ("out.mp4")) = 1 ∧
      finishedCount (runWorker envVidNoUp settings0 ("in.mp4") ("out.mp4")) = 1 ∧
      stageSpawnCount Stage.frameUp (runWorker envVidNoUp settings0 ("in.mp4") ("out.mp4")) = 0 ∧
      stageSpawnCount Stage.reassemble (runWorker envVidNoUp settings0 ("in.mp4") ("out.mp4")) = 0 ∧
      stageSpawnCount Stage.audioTrack (runWorker envVidNoUp settings0 ("in.mp4") ("out.mp4")) = 0 ∧
      spawnCount (runWorker envVidNoUp settings0 ("in.mp4") ("out.mp4")) ≤ 1) :=
  ⟨by decide, rfl,
    (C3_amended_missing_upscaler envVidNoUp settings0 ("in.mp4") ("out.mp4") (by decide) rfl).2⟩

/-- C4: a video job whose extraction produced n frames and whose
    cancellation flag is first seen set at the flag read that follows the
    k-th frame completion (k < n) emits exactly k progress values (the
    emitted sequence is the loop's first k values), performs no reassembly
    and no audio-copy invocation, and its workspace removal still happens
    (shown here with a succeeding OS removal, env.rmtreeOk = true). -/
theorem C4_cancel_after_k_frames (env : Env) (s : Settings) (fp op : String) (n k : ℕ)
    (hv : isVideoFile fp = true)
    (hff : ∃ ff, getFfmpegPath env.fs = Except.ok ff)
    (hret : env.extractRet = 0)
    (hexe : ∃ exe, findRealesrganExecutable env.fs = some exe)
    (hn : (extractedFrames env (joinPath env.tempDir ("frames"))).length = n)
    (hc : env.cancelFrom = some (k + 1))
    (hkn : k < n)
    (hok : env.rmtreeOk = true) :
    progressValues (runWorker env s fp op) = progList 1 k n ∧
    (progressValues (runWorker env s fp op)).length = k ∧
    stageSpawnCount Stage.reassemble (runWorker env s fp op) = 0 ∧
    stageSpawnCount Stage.audioTrack (runWorker env s fp op) = 0 ∧
    Item.act (Act.removeTree env.tempDir true) ∈ runWorker env s fp op := by
  obtain ⟨ff, hff⟩ := hff
  obtain ⟨exe, hexe⟩ := hexe
  have hne : (extractedFrames env (joinPath env.tempDir ("frames"))).isEmpty = false := by
    cases hE : extractedFrames env (joinPath env.tempDir ("frames")) with
    | nil =>
      rw [hE] at hn
      simp at hn
      omega
    | cons a l => rfl
  have hchar := inner_cancel_char ff exe s fp op
    (joinPath env.tempDir ("frames")) (joinPath env.tempDir ("upscaled")) k hc hff hret hne hexe
    (by omega)
  have hpv : progressValues (runWorker env s fp op) = progList 1 k n := by
    unfold runWorker
    rw [if_pos hv]
    rw [progressValues_append, video_pV, hchar.1, hn]
    simp
  refine ⟨hpv, ?_, ?_, ?_, ?_⟩
  · rw [hpv, progList_length]
  · unfold runWorker
    rw [if_pos hv, ssc_append, video_stageCount, hchar.2.1]
    simp
  · unfold runWorker
    rw [if_pos hv, ssc_append, video_stageCount, hchar.2.2.1]
    simp
  · unfold runWorker
    rw [if_pos hv]
    have hmem := removeTree_mem_video env s fp op
    rw [hok] at hmem
    exact List.mem_append_left _ hmem

/-- C4 (witness): the concrete ten-frame environment cancelled right after
    the fourth frame, matching the spec example n = 10, k = 4. -/
theorem C4_cancel_after_k_frames_witness :
    isVideoFile ("in.mp4") = true ∧
    (extractedFrames envVidCancel (joinPath envVidCancel.tempDir ("frames"))).length = 10 ∧
    envVidCancel.cancelFrom = some 5 ∧
    (progressValues (runWorker envVidCancel settings0 ("in.mp4") ("out.mp4"))).length = 4 ∧
    stageSpawnCount Stage.reassemble (runWorker envVidCancel settings0 ("in.mp4") ("out.mp4")) = 0 ∧
    stageSpawnCount Stage.audioTrack (runWorker envVidCancel settings0 ("in.mp4") ("out.mp4")) = 0 ∧
    Item.act (Act.removeTree envVidCancel.tempDir true) ∈
      runWorker envVidCancel settings0 ("in.mp4") ("out.mp4") := by
  have h := C4_cancel_after_k_frames envVidCancel settings0 ("in.mp4") ("out.mp4") 10 4
    (by decide) ⟨"/usr/bin/ffmpeg", rfl⟩ rfl ⟨"./realesrgan-ncnn-vulkan", by decide⟩
    (by decide) rfl (by decide) rfl
  exact ⟨by decide, by decide, rfl, h.2.1, h.2.2.1, h.2.2.2.1, h.2.2.2.2⟩

/-- C9 (amended): in an uncancelled video run with n extracted frames
    (n at least 1), the emitted progress sequence is exactly the loop
    formula int((k / n) * 100) evaluated in IEEE double precision for
    k = 1..n — which can fall one below the exact floor((k/n)*100), see the
    counterexample — and the emitted value after the k-th frame is
    pyProgress k n; the sequence is non-decreasing, bounded inside [0,100],
    and ends at 100. -/
theorem C9_amended_progress_formula (env : Env) (s : Settings) (fp op : String) (n : ℕ)
    (hv : isVideoFile fp = true)
    (hc : env.cancelFrom = none)
    (hff : ∃ ff, getFfmpegPath env.fs = Except.ok ff)
    (hret : env.extractRet = 0)
    (hexe : ∃ exe, findRealesrganExecutable env.fs = some exe)
    (hn : (extractedFrames env (joinPath env.tempDir ("frames"))).length = n)
    (hpos : 1 ≤ n) :
    progressValues (runWorker env s fp op) = progList 1 n n ∧
    (∀ k, 1 ≤ k → k ≤ n →
      (progressValues (runWorker env s fp op))[k - 1]? = some (pyProgress k n)) ∧
    (∀ k j, k ≤ j → pyProgress k n ≤ pyProgress j n) ∧
    (∀ k, k ≤ n → 0 ≤ pyProgress k n ∧ pyProgress k n ≤ 100) ∧
    pyProgress n n = 100 := by
  obtain ⟨ff, hff⟩ := hff
  obtain ⟨exe, hexe⟩ := hexe
  have hne : (extractedFrames env (joinPath env.tempDir ("frames"))).isEmpty = false := by
    cases hE : extractedFrames env (joinPath env.tempDir ("frames")) with
    | nil =>
      rw [hE] at hn
      simp at hn
      omega
    | cons a l => rfl
  have hpv : progressValues (runWorker env s fp op) = progList 1 n n := by
    unfold runWorker
    rw [if_pos hv, progressValues_append, video_pV,
      inner_nocancel_pV ff exe s fp op _ _ hc hff hret hne hexe, hn]
    simp
  refine ⟨hpv, ?_, ?_, ?_, pyProgress_self hpos⟩
  · intro k h1 h2
    rw [hpv, progList_getElem 1 n n (k - 1) (by omega),
      show 1 + (k - 1) = k from by omega]
  · intro k j hkj
    exact pyProgress_mono hkj
  · intro k hk
    exact ⟨pyProgress_nonneg k n, pyProgress_le_hundred hk⟩

/-- C9 (witness): the amended statement at the hundred-frame environment. -/
theorem C9_amended_progress_formula_witness :
    (extractedFrames envVid100 (joinPath envVid100.tempDir ("frames"))).length = 100 ∧
    pyProgress 100 100 = 100 :=
  ⟨by decide,
    (C9_amended_progress_formula envVid100 settings0 ("in.mp4") ("out.mp4") 100 (by decide) rfl
      ⟨"/usr/bin/ffmpeg", rfl⟩ rfl ⟨"./realesrgan-ncnn-vulkan", by decide⟩ (by decide)
      (by decide)).2.2.2.2⟩

/-- C9 (counterexample): the claim fails on the code.  In a hundred-frame
    uncancelled run, the value emitted after frame 29 is the
    double-precision truncation int((29/100)*100) = 28, while the claimed
    exact formula floor((29/100)*100) gives 29: Python computes
    29/100 as the double 5224175567749775/2^54, and multiplying by 100
    rounds to 8162774324609023/2^48, just below 29. -/
theorem C9_counterexample :
    (progressValues (runWorker envVid100 settings0 ("in.mp4") ("out.mp4")))[28]? =
      some (pyProgress 29 100) ∧
    pyProgress 29 100 = 28 ∧
    ⌊((29 : ℚ) / 100) * 100⌋ = 29 := by
  have hne : (extractedFrames envVid100 (joinPath envVid100.tempDir ("frames"))).isEmpty = false := by
    decide
  have hpv : progressValues (runWorker envVid100 settings0 ("in.mp4") ("out.mp4")) =
      progList 1 100 100 := by
    unfold runWorker
    rw [if_pos (by decide), progressValues_append, video_pV,
      inner_nocancel_pV ("/usr/bin/ffmpeg") ("./realesrgan-ncnn-vulkan") settings0
        ("in.mp4") ("out.mp4") _ _ (show envVid100.cancelFrom = none from rfl) rfl rfl hne
        (by decide),
      show (extractedFrames envVid100 (joinPath envVid100.tempDir ("frames"))).length = 100 from
        by decide]
    simp
  refine ⟨?_, pyProgress_29_100, by norm_num⟩
  rw [hpv, progList_getElem 1 100 100 28 (by norm_num)]

/-- C7 (counterexample): the claim fails on the code.  With m1.param
    present but m1.bin absent, and a fully valid model m2 available, an
    image job configured for m1 resolves to m1 anyway — the presence check
    at workers.py line 90 tests only the parameter file — so no fallback
    happens, no substitution warning is logged, and the invalid model is
    passed to the invocation. -/
theorem C7_counterexample :
    fsModelsParamOnly.pathExists ("./models/m1.bin") = false ∧
    getAvailableModels fsModelsParamOnly ("./models") = ["m2"] ∧
    resolveModel fsModelsParamOnly settingsM1 ("./models") = ([], Except.ok ("m1")) ∧
    Item.act (Act.spawn Stage.image
      (imageCmd settingsM1 ("./realesrgan-ncnn-vulkan") ("m1") ("a.jpg") ("out.jpg")) true) ∈
      upscaleImage envModelParamOnly settingsM1 ("a.jpg") ("out.jpg") := by
  refine ⟨rfl, by decide, by decide, by decide⟩

/-- C7 (amended): a model id is listed as available for fallback only if
    its weight file exists next to its parameter file; the exact configured
    model, however, is accepted whenever its parameter file alone exists;
    when the configured parameter file is missing the job resolves to a
    listed model — the requested id if listed, otherwise the first
    available id — logging the substitution, and it fails with the
    missing-model error only when no model is available at all. -/
theorem C7_amended_model_resolution (fs : FS) (s : Settings) (mdir : String) :
    (∀ m, m ∈ getAvailableModels fs mdir →
      fs.pathExists (joinPath mdir (m ++ ".bin")) = true) ∧
    (fs.pathExists (joinPath mdir (s.model.getD ("realesr-animevideov3-x4") ++ ".param")) = true →
      resolveModel fs s mdir = ([], Except.ok (s.model.getD ("realesr-animevideov3-x4")))) ∧
    (fs.pathExists (joinPath mdir (s.model.getD ("realesr-animevideov3-x4") ++ ".param")) = false →
      getAvailableModels fs mdir = [] →
      resolveModel fs s mdir = ([], Except.error ("No Real-ESRGAN models found in " ++ mdir))) ∧
    (∀ m rest,
      fs.pathExists (joinPath mdir (s.model.getD ("realesr-animevideov3-x4") ++ ".param")) = false →
      getAvailableModels fs mdir = m :: rest →
      (resolveModel fs s mdir).2 =
          Except.ok (if s.model.getD ("realesr-animevideov3-x4") ∈ m :: rest then
            s.model.getD ("realesr-animevideov3-x4") else m) ∧
        (resolveModel fs s mdir).1 =
          [Item.ev (Ev.log ("Model " ++ modelRepr s.model ++ " not found, using " ++
            (if s.model.getD ("realesr-animevideov3-x4") ∈ m :: rest then
              s.model.getD ("realesr-animevideov3-x4") else m) ++ " instead"))]) := by
  refine ⟨?_, ?_, ?_, ?_⟩
  · intro m hm
    unfold getAvailableModels at hm
    split_ifs at hm with hex
    · have := List.mem_filter.mp hm
      simpa using this.2
    · simp at hm
  · intro hp
    unfold resolveModel
    dsimp only
    rw [if_pos hp]
  · intro hp hav
    unfold resolveModel
    dsimp only
    rw [if_neg (by simp [hp]), hav]
  · intro m rest hp hav
    unfold resolveModel
    dsimp only
    rw [if_neg (by simp [hp]), hav]
    constructor <;> rfl

/-- C7 (witness): with m1.param removed entirely, the job configured for
    m1 falls back to the first available model m2 and logs the
    substitution. -/
theorem C7_amended_model_resolution_witness :
    fsModelsFallback.pathExists
      (joinPath ("./models") (settingsM1.model.getD ("realesr-animevideov3-x4") ++ ".param")) = false ∧
    getAvailableModels fsModelsFallback ("./models") = ["m2"] ∧
    (resolveModel fsModelsFallback settingsM1 ("./models")).2 =
        Except.ok (if settingsM1.model.getD ("realesr-animevideov3-x4") ∈ ["m2"] then
          settingsM1.model.getD ("realesr-animevideov3-x4") else "m2") ∧
      (resolveModel fsModelsFallback settingsM1 ("./models")).1 =
        [Item.ev (Ev.log ("Model " ++ modelRepr settingsM1.model ++ " not found, using " ++
          (if settingsM1.model.getD ("realesr-animevideov3-x4") ∈ ["m2"] then
            settingsM1.model.getD ("realesr-animevideov3-x4") else "m2") ++ " instead"))] :=
  ⟨by decide, by decide,
    (C7_amended_model_resolution fsModelsFallback settingsM1 ("./models")).2.2.2 "m2" []
      (by decide) (by decide)⟩
